import Mathlib

/-!
Verification of the `context-agent` event ingestion and state engine.

This file is a shallow embedding, in Lean 4, of the core of the repository:

* `src/context_agent/project_db.py` (`ProjectStore`): summary normalization,
  touched-path sanitization, event deduplication, the file-transition state
  machine, quota enforcement, and the status snapshot;
* `src/context_agent/mcp_server.py` (`MCPServer._handle_tool`): the
  `get_context`, `append_event`, `start_chat_session` and `stop_chat_session`
  tools;
* `src/build/lib/context_agent/utils.py` (`normalize_summary`) and
  `src/build/lib/context_agent/constants.py` (the constant sets), which are
  the `utils`/`constants` modules imported by `context_agent`.

Modelling conventions:

* SQLite tables become Lean lists of rows; `AUTOINCREMENT` ids become
  explicit `next…Id` counters.
* ISO-8601 timestamps (second precision) become `Nat` seconds; the Python
  code only ever compares them and takes differences in seconds.
* A Python function that can raise becomes an `Except`.  The sqlite3
  connection context manager rolls the transaction back when the body
  raises, so an `Except.error` result carries no updated store.
* The SHA-256 dedupe digest is modelled by its preimage (the `dedupe_basis`
  string built in `_insert_event_with_conn`): the code only ever compares
  digests for equality, and equal bases give equal digests.
* The measured size of the `.context-memory` directory
  (`utils.directory_size_bytes`) is modelled by the field `usage`, which
  grows by `insertCost` bytes on every real insert (the new table row plus
  the appended JSONL line) and shrinks by `vacuumGain` bytes when the
  compaction / `VACUUM` pass of `_enforce_quota` runs.  `insertCost` and
  `vacuumGain` are abstract parameters of the store: the exact byte counts
  depend on the SQLite file layout, which is outside the model.
* Strings are compared and ordered by Unicode code points, as Python does;
  the ASCII whitespace class models Python's `str.strip` / `\s`.
-/

/-! ### Python string primitives (`str.strip`, `re.sub(r"\s+", " ", ·)`, `str.lower`, slicing, ordering) -/

/-- The whitespace characters recognised by Python's `str.strip()` and by
`\s` in `re.sub` (ASCII range; exotic Unicode whitespace is out of model
scope). -/
def isPySpace (c : Char) : Bool :=
  c = ' ' || c = '\t' || c = '\n' || c = '\r' || c = '\x0b' || c = '\x0c'

/-- `str.strip()` on a character list: drop leading and trailing whitespace. -/
def stripChars (cs : List Char) : List Char :=
  ((cs.dropWhile isPySpace).reverse.dropWhile isPySpace).reverse

/-- `str.strip()` on a string. -/
def pyStrip (s : String) : String :=
  ⟨stripChars s.data⟩

/-- `re.sub(r"\s+", " ", ·)`: replace every maximal whitespace run with one
space.  The flag records whether the previous character was whitespace. -/
def collapseGo : Bool → List Char → List Char
  | _, [] => []
  | prevWS, c :: rest =>
    if isPySpace c then
      if prevWS then collapseGo true rest else ' ' :: collapseGo true rest
    else
      c :: collapseGo false rest

/-- `utils.normalize_summary` (src/build/lib/context_agent/utils.py:49-51):
`re.sub(r"\s+", " ", summary.strip())[:max_chars]`. -/
def normalize_summary (summary : String) (maxChars : Nat) : String :=
  ⟨(collapseGo false (stripChars summary.data)).take maxChars⟩

/-- `str.lower()` on one character (ASCII model, as used for client names and
the dedupe basis in this code base). -/
def lowerChar (c : Char) : Char :=
  if 'A' ≤ c && c ≤ 'Z' then Char.ofNat (c.toNat + 32) else c

/-- `str.lower()` on a string. -/
def lowerStr (s : String) : String :=
  ⟨s.data.map lowerChar⟩

/-- Lexicographic code-point order on character lists: Python's `<=` on
`str`, used by `sorted`. -/
def lexLe : List Char → List Char → Bool
  | [], _ => true
  | _ :: _, [] => false
  | a :: as, b :: bs =>
    if a.toNat < b.toNat then true
    else if b.toNat < a.toNat then false
    else lexLe as bs

/-- Python string order. -/
def pyStrLe (a b : String) : Prop :=
  lexLe a.data b.data = true

instance : DecidableRel pyStrLe := fun a b => by
  unfold pyStrLe; infer_instance

instance : IsTotal String pyStrLe where
  total a b := by
    obtain ⟨as⟩ := a
    obtain ⟨bs⟩ := b
    show lexLe as bs = true ∨ lexLe bs as = true
    induction as generalizing bs with
    | nil => left; rfl
    | cons x xs ih =>
      cases bs with
      | nil => right; rfl
      | cons y ys =>
        by_cases hxy : x.toNat < y.toNat
        · left; simp [lexLe, hxy]
        · by_cases hyx : y.toNat < x.toNat
          · right; simp [lexLe, hyx]
          · rcases ih ys with h | h
            · left; simp [lexLe, hxy, hyx, h]
            · right; simp [lexLe, hxy, hyx, h]

instance : IsTrans String pyStrLe where
  trans a b c hab hbc := by
    obtain ⟨as⟩ := a
    obtain ⟨bs⟩ := b
    obtain ⟨cs⟩ := c
    show lexLe as cs = true
    replace hab : lexLe as bs = true := hab
    replace hbc : lexLe bs cs = true := hbc
    induction as generalizing bs cs with
    | nil => rfl
    | cons x xs ih =>
      cases bs with
      | nil => simp [lexLe] at hab
      | cons y ys =>
        cases cs with
        | nil => simp [lexLe] at hbc
        | cons z zs =>
          simp only [lexLe] at hab hbc ⊢
          by_cases hxy : x.toNat < y.toNat
          · by_cases hyz : y.toNat < z.toNat
            · have : x.toNat < z.toNat := Nat.lt_trans hxy hyz
              simp [this]
            · by_cases hzy : z.toNat < y.toNat
              · simp [hxy, hyz, hzy] at hbc
              · have hyzEq : y.toNat = z.toNat :=
                  Nat.le_antisymm (Nat.le_of_not_lt hzy) (Nat.le_of_not_lt hyz)
                have : x.toNat < z.toNat := hyzEq ▸ hxy
                simp [this]
          · by_cases hyx : y.toNat < x.toNat
            · simp [hxy, hyx] at hab
            · have hxyEq : x.toNat = y.toNat :=
                Nat.le_antisymm (Nat.le_of_not_lt hyx) (Nat.le_of_not_lt hxy)
              by_cases hyz : y.toNat < z.toNat
              · have : x.toNat < z.toNat := hxyEq ▸ hyz
                simp [this]
              · by_cases hzy : z.toNat < y.toNat
                · simp [hyz, hzy] at hbc
                · have hxz : ¬ x.toNat < z.toNat := by
                    intro h; exact hyz (hxyEq ▸ h)
                  have hzx : ¬ z.toNat < x.toNat := by
                    intro h; exact hzy (hxyEq ▸ h)
                  have := ih ys zs (by simpa [hxy, hyx] using hab)
                    (by simpa [hyz, hzy] using hbc)
                  simp [hxz, hzx, this]

/-! ### POSIX path model (`pathlib.Path`, `as_posix`, `resolve`, `relative_to`)

A path is represented by its component list; `pathlib` drops empty and `"."`
components.  `resolve` is modelled without symlinks: starting from the
absolute base, `".."` pops one component. -/

/-- Split a raw path string at `/`, keeping raw pieces. -/
def splitSlashGo : List Char → List Char → List String
  | [], acc => [⟨acc.reverse⟩]
  | c :: rest, acc =>
    if c = '/' then (⟨acc.reverse⟩ : String) :: splitSlashGo rest []
    else splitSlashGo rest (c :: acc)

/-- The components of a POSIX path, as `pathlib.PurePosixPath` keeps them:
empty pieces and `"."` are dropped, `".."` is kept. -/
def splitPath (s : String) : List String :=
  (splitSlashGo s.data []).filter (fun c => c ≠ "" && c ≠ ".")

/-- POSIX `Path.is_absolute()`: the raw string starts with `/`. -/
def isAbsPath (s : String) : Bool :=
  match s.data with
  | '/' :: _ => true
  | _ => false

/-- Join components back into a POSIX string (`Path.as_posix()`). -/
def joinPosix (abs : Bool) (cs : List String) : String :=
  (if abs then "/" else "") ++
    (match cs with
     | [] => ""
     | c :: rest => rest.foldl (fun acc x => acc ++ "/" ++ x) c)

/-- `Path(s).as_posix()` for the non-empty paths this code handles. -/
def posixOf (s : String) : String :=
  joinPosix (isAbsPath s) (splitPath s)

/-- `normalize_path(root / raw)` on components: append, letting `".."` pop
(symlink-free model of `Path.resolve()`). -/
def resolveUnder (root : List String) (raw : List String) : List String :=
  raw.foldl (fun acc c => if c = ".." then acc.dropLast else acc ++ [c]) root

/-- `resolved.relative_to(root)`: succeeds exactly when `root` is a prefix,
returning the remainder. -/
def dropRootPref : List String → List String → Option (List String)
  | [], rest => some rest
  | _ :: _, [] => none
  | a :: as, b :: bs => if a = b then dropRootPref as bs else none

/-! ### Constants (src/build/lib/context_agent/constants.py) -/

/-- The closed event-type set `EVENT_TYPES`. -/
def EVENT_TYPES : List String :=
  ["user_intent", "agent_plan", "code_change", "revert", "decision_made",
   "tool_use", "test_result", "error_seen", "task_status", "handoff"]

/-- `HIGH_VALUE_EVENT_TYPES`: never removed by compaction. -/
def HIGH_VALUE_EVENT_TYPES : List String :=
  ["decision_made", "handoff", "error_seen", "tool_use", "revert"]

/-- `DELETED_FILE_HASH`. -/
def DELETED_FILE_HASH : String := "__deleted__"

/-- `DEDUPE_WINDOW_SECONDS`. -/
def DEDUPE_WINDOW_SECONDS : Nat := 30

/-- `SUMMARY_MAX_CHARS`. -/
def SUMMARY_MAX_CHARS : Nat := 500

/-! ### Data model (tables of src/context_agent/project_db.py) -/

/-- One row of the `sessions` table. -/
structure SessionRow where
  id : Nat
  agent : String
  startedAt : Nat
  stoppedAt : Option Nat
  state : String
  externalSessionRef : Option String
  lastUpdatedAt : Option Nat
  deriving DecidableEq

/-- One row of the `events` table. `filesTouched` stands for the decoded
`files_touched_json` column; `dedupeHash` holds the dedupe basis (see the
header note on SHA-256). -/
structure EventRow where
  id : Nat
  sessionId : Nat
  eventType : String
  summary : String
  filesTouched : List String
  beforeHash : Option String
  afterHash : Option String
  revertedEventId : Option Nat
  revertedByEventId : Option Nat
  isEffective : Nat
  source : String
  createdAt : Nat
  updatedAt : Nat
  dedupeHash : String
  deriving DecidableEq

/-- One row of the `file_state` table. -/
structure FileStateRow where
  path : String
  currentHash : String
  baselineHash : String
  lastEventId : Option Nat
  isClean : Nat
  updatedAt : Nat
  deriving DecidableEq

/-- The per-project store: the SQLite tables of `ProjectStore` plus the JSONL
sidecar log and the storage-size bookkeeping described in the header. -/
structure ProjectStore where
  sessions : List SessionRow
  events : List EventRow
  fileState : List FileStateRow
  /-- `file_hash_history` as its set of `(path, hash)` keys (the timestamps
  are never read back by the core). -/
  fileHashHistory : List (String × String)
  /-- `tool_usage` rows as `(event_id, tool_name)`. -/
  toolUsage : List (Nat × String)
  /-- `decisions` rows as `(event_id, summary)`. -/
  decisions : List (Nat × String)
  /-- `source_status` rows as `(session_id, source, status)` (the free-text
  `detail` column is never read back by the core). -/
  sourceStatus : List (Nat × String × String)
  /-- Ids of events appended to `logs/events-YYYY-MM-DD.jsonl`, one entry per
  written line. -/
  log : List Nat
  /-- Number of rollup rows written by compaction. -/
  rollups : Nat
  nextSessionId : Nat
  nextEventId : Nat
  /-- `projects.recording_state`. -/
  recordingState : String
  /-- `projects.last_updated_at`. -/
  projectLastUpdatedAt : Option Nat
  /-- `projects.updated_at`. -/
  projectUpdatedAt : Nat
  /-- `projects.storage_cap_bytes`. -/
  cap : Nat
  /-- The measured byte size of `.context-memory` (see header). -/
  usage : Nat
  /-- `projects.storage_used_bytes`. -/
  storageUsedBytes : Nat
  /-- Bytes added to the directory by one event insert (row + JSONL line). -/
  insertCost : Nat
  /-- Bytes reclaimed by the compaction / `VACUUM` pass (see header). -/
  vacuumGain : Nat
  /-- Components of the absolute project root (`self.project_path`). -/
  projectRoot : List String
  deriving DecidableEq

/-- Errors raised by `ProjectStore` operations: `ValueError` for the empty
summary (the spec's `InvalidArgument`) and `StorageCapError`. -/
inductive StoreErr where
  | invalidArgument
  | storageCap
  deriving DecidableEq

instance {ε α : Type} [DecidableEq ε] [DecidableEq α] : DecidableEq (Except ε α)
  | .error a, .error b =>
    if h : a = b then isTrue (by rw [h]) else isFalse (by simp [h])
  | .error _, .ok _ => isFalse (by simp)
  | .ok _, .error _ => isFalse (by simp)
  | .ok a, .ok b =>
    if h : a = b then isTrue (by rw [h]) else isFalse (by simp [h])

/-! ### ProjectStore operations (src/context_agent/project_db.py) -/

/-- `ProjectStore.create_session` (project_db.py:321-347): unconditionally
inserts a new `running` session and marks the project recording. -/
def createSession (s : ProjectStore) (agent : String) (externalSessionRef : Option String)
    (now : Nat) : ProjectStore × Nat :=
  let sid := s.nextSessionId
  let row : SessionRow :=
    { id := sid
      agent := agent
      startedAt := now
      stoppedAt := none
      state := "running"
      externalSessionRef := externalSessionRef
      lastUpdatedAt := some now }
  ({ s with
     sessions := s.sessions ++ [row],
     nextSessionId := sid + 1,
     recordingState := "recording",
     projectLastUpdatedAt := some now,
     projectUpdatedAt := now }, sid)

/-- `ProjectStore.get_active_session` (project_db.py:356-368):
`SELECT * FROM sessions WHERE state = 'running' ORDER BY started_at DESC
LIMIT 1`.  Ties on `started_at` are unordered in SQL; the model keeps the
later row. -/
def getActiveSession (s : ProjectStore) : Option SessionRow :=
  (s.sessions.filter fun t => t.state == "running").foldl
    (fun acc t =>
      match acc with
      | none => some t
      | some b => if b.startedAt ≤ t.startedAt then some t else some b) none

/-- `ProjectStore.set_session_state` (project_db.py:370-412): `stopped_at` is
set only for state `"stopped"`; the project recording state mirrors
`stopped`/`stopping`. -/
def setSessionState (s : ProjectStore) (sessionId : Nat) (state : String) (now : Nat) :
    ProjectStore :=
  if state = "stopped" then
    { s with
      sessions := s.sessions.map fun t =>
        if t.id = sessionId then
          { t with state := state, stoppedAt := some now, lastUpdatedAt := some now }
        else t,
      recordingState := "stopped",
      projectUpdatedAt := now,
      projectLastUpdatedAt := some now }
  else
    let s1 := { s with sessions := s.sessions.map fun t =>
      if t.id = sessionId then { t with state := state, lastUpdatedAt := some now } else t }
    if state = "stopping" then
      { s1 with recordingState := "stopping", projectUpdatedAt := now }
    else s1

/-- `ProjectStore.update_source_status` (project_db.py:469-484): upsert on
`(session_id, source)`. -/
def updateSourceStatus (s : ProjectStore) (sessionId : Nat) (source status : String) :
    ProjectStore :=
  if s.sourceStatus.any fun r => r.1 == sessionId && r.2.1 == source then
    { s with sourceStatus := s.sourceStatus.map fun r =>
        if r.1 == sessionId && r.2.1 == source then (r.1, r.2.1, status) else r }
  else
    { s with sourceStatus := s.sourceStatus ++ [(sessionId, source, status)] }

/-- `ProjectStore.initialize_file_state` (project_db.py:486-510):
`INSERT … ON CONFLICT(path) DO NOTHING` into `file_state` plus a hash-history
upsert, for every snapshot entry. -/
def init_file_state (s : ProjectStore) (snapshot : List (String × String)) (now : Nat) :
    ProjectStore :=
  snapshot.foldl
    (fun acc ph =>
      let row : FileStateRow :=
        { path := ph.1
          currentHash := ph.2
          baselineHash := ph.2
          lastEventId := none
          isClean := 1
          updatedAt := now }
      let acc1 :=
        if acc.fileState.any fun r => r.path == ph.1 then acc
        else { acc with fileState := acc.fileState ++ [row] }
      if acc1.fileHashHistory.contains ph then acc1
      else { acc1 with fileHashHistory := acc1.fileHashHistory ++ [ph] }) s

/-- The coercion of `event_type` in `_insert_event_with_conn`
(project_db.py:631-632): `(event_type or "task_status").strip()`, then any
value outside `EVENT_TYPES` becomes `"task_status"`. -/
def safeTypeOf (eventType : String) : String :=
  let rawType := pyStrip (if eventType = "" then "task_status" else eventType)
  if EVENT_TYPES.contains rawType then rawType else "task_status"

/-- Path sanitization for one touched path (project_db.py:640-653): absolute
paths are stored as POSIX absolute; relative paths are resolved against the
project root and stored relative when still inside it, else stored raw. -/
def sanitizeOne (root : List String) (item : String) : Option String :=
  let raw := pyStrip item
  if raw = "" then none
  else if isAbsPath raw then some (joinPosix true (splitPath raw))
  else
    match dropRootPref root (resolveUnder root (splitPath raw)) with
    | some [] => some "."
    | some rest => some (joinPosix false rest)
    | none => some (joinPosix false (splitPath raw))

/-- `files = sorted(sanitized)` where `sanitized` is a Python `set`
(project_db.py:637-654). -/
def sanitizeFiles (root : List String) (items : List String) : List String :=
  List.insertionSort pyStrLe ((items.filterMap (sanitizeOne root)).dedup)

/-- `','.join(files)`. -/
def joinComma : List String → String
  | [] => ""
  | c :: rest => rest.foldl (fun acc x => acc ++ "," ++ x) c

/-- `x or ''` for an optional string (`None` and `""` both yield `""`). -/
def orEmpty : Option String → String
  | none => ""
  | some s => s

/-- `f"{reverted_event_id or ''}"`. -/
def optNatStr : Option Nat → String
  | none => ""
  | some n => toString n

/-- `x if x else None`: Python truthiness on an optional string. -/
def optTruthy : Option String → Option String
  | some t => if t = "" then none else some t
  | none => none

/-- The `dedupe_basis` string of `_insert_event_with_conn`
(project_db.py:656-659); its SHA-256 digest is modelled by the basis itself
(see header). -/
def dedupeBasis (safeType safeSummary : String) (files : List String)
    (beforeHash afterHash : Option String) (revertedEventId : Option Nat)
    (isEffective : Nat) : String :=
  safeType ++ "|" ++ lowerStr safeSummary ++ "|" ++ joinComma files ++ "|" ++
    orEmpty beforeHash ++ "|" ++ orEmpty afterHash ++ "|" ++
    optNatStr revertedEventId ++ "|" ++ toString isEffective

/-- Keyword arguments of `_insert_event_with_conn`. -/
structure InsertArgs where
  sessionId : Nat
  eventType : String
  summary : String
  filesTouched : Option (List String)
  source : String
  toolName : Option String
  toolPurpose : Option String
  toolResult : Option String
  decisionSummary : Option String
  beforeHash : Option String
  afterHash : Option String
  revertedEventId : Option Nat
  isEffective : Nat
  deriving DecidableEq

/-- The dedupe fingerprint a call of `_insert_event_with_conn` computes. -/
def insertFingerprint (s : ProjectStore) (a : InsertArgs) : String :=
  dedupeBasis (safeTypeOf a.eventType) (normalize_summary a.summary SUMMARY_MAX_CHARS)
    (sanitizeFiles s.projectRoot (a.filesTouched.getD []))
    a.beforeHash a.afterHash a.revertedEventId a.isEffective

/-- `ORDER BY created_at DESC LIMIT 1` over the matching dedupe candidates;
ties are unordered in SQL, the model keeps the later row. -/
def latestBy (l : List EventRow) : Option EventRow :=
  l.foldl
    (fun acc e =>
      match acc with
      | none => some e
      | some b => if b.createdAt ≤ e.createdAt then some e else some b) none

/-- `ProjectStore._insert_event_with_conn` (project_db.py:612-768).  The
dedupe window test `(now_dt - created).total_seconds() <= 30` is modelled
with truncated `Nat` subtraction: when `created > now` the Python difference
is negative, hence also `≤ 30`, and `Nat` truncation to `0` agrees. -/
def insertEventWithConn (s : ProjectStore) (a : InsertArgs) (now : Nat) :
    Except StoreErr (ProjectStore × Nat) :=
  let safeType := safeTypeOf a.eventType
  let safeSummary := normalize_summary a.summary SUMMARY_MAX_CHARS
  if safeSummary = "" then .error .invalidArgument
  else
    let files := sanitizeFiles s.projectRoot (a.filesTouched.getD [])
    -- `insertFingerprint s a` is `dedupeBasis` applied to exactly the
    -- `safe_type`, lower-cased `safe_summary`, sanitized files and raw
    -- hash / revert / effectiveness arguments computed above.
    let fp := insertFingerprint s a
    let hit :=
      match latestBy (s.events.filter fun e => e.sessionId == a.sessionId && e.dedupeHash == fp) with
      | some ex => if now - ex.createdAt ≤ DEDUPE_WINDOW_SECONDS then some ex else none
      | none => none
    match hit with
    | some ex =>
      .ok ({ s with
        events := s.events.map fun e => if e.id = ex.id then { e with updatedAt := now } else e,
        sessions := s.sessions.map fun t =>
          if t.id = a.sessionId then { t with lastUpdatedAt := some now } else t,
        projectLastUpdatedAt := some now,
        projectUpdatedAt := now }, ex.id)
    | none =>
      let eid := s.nextEventId
      let row : EventRow :=
        { id := eid
          sessionId := a.sessionId
          eventType := safeType
          summary := safeSummary
          filesTouched := files
          beforeHash := a.beforeHash
          afterHash := a.afterHash
          revertedEventId := a.revertedEventId
          revertedByEventId := none
          isEffective := a.isEffective
          source := a.source
          createdAt := now
          updatedAt := now
          dedupeHash := fp }
      let newUsage := s.usage + s.insertCost
      .ok ({ s with
        events := s.events ++ [row],
        toolUsage :=
          match optTruthy a.toolName with
          | some tn => s.toolUsage ++ [(eid, tn)]
          | none => s.toolUsage,
        decisions :=
          if safeType = "decision_made" ∨ (optTruthy a.decisionSummary).isSome then
            s.decisions ++ [(eid, (optTruthy a.decisionSummary).getD safeSummary)]
          else s.decisions,
        sessions := s.sessions.map fun t =>
          if t.id = a.sessionId then { t with lastUpdatedAt := some now } else t,
        projectLastUpdatedAt := some now,
        projectUpdatedAt := now,
        log := s.log ++ [eid],
        usage := newUsage,
        storageUsedBytes := newUsage,
        nextEventId := eid + 1 }, eid)

/-- The events `ProjectStore.compact` (project_db.py:555-589) selects: not
high-value, older than 24 hours, oldest first, at most 3000. -/
def compactSelect (events : List EventRow) (now : Nat) : List EventRow :=
  (List.insertionSort (fun a b : EventRow => a.createdAt ≤ b.createdAt)
    (events.filter fun e =>
      !HIGH_VALUE_EVENT_TYPES.contains e.eventType && e.createdAt + 86400 < now)).take 3000

/-- `ProjectStore.compact`: if any event is selected, write one rollup row
and delete the selected events. -/
def compact (s : ProjectStore) (now : Nat) : ProjectStore :=
  let rows := compactSelect s.events now
  if rows.isEmpty then s
  else
    { s with
      rollups := s.rollups + 1,
      events := s.events.filter fun e => !(rows.map EventRow.id).contains e.id }

/-- `ProjectStore._enforce_quota` (project_db.py:591-610).  The compaction
threshold `int(cap * 0.85)` is `(85 * cap) / 100` in integer arithmetic.
After compaction and `VACUUM` the directory is re-measured: the model lets it
shrink by `vacuumGain` bytes.  The check `used >= cap` runs BEFORE the
caller's insert. -/
def enforceQuota (s : ProjectStore) (now : Nat) : Except StoreErr ProjectStore :=
  let s1 :=
    if s.usage ≥ (85 * s.cap) / 100 then
      let sc := compact s now
      { sc with usage := sc.usage - min sc.vacuumGain sc.usage }
    else s
  let s2 := { s1 with storageUsedBytes := s1.usage, projectUpdatedAt := now }
  if s2.usage ≥ s2.cap then .error .storageCap else .ok s2

/-- `ProjectStore.insert_event` (project_db.py:770-809): quota enforcement
then the insert, in one transaction. -/
def insertEvent (s : ProjectStore) (a : InsertArgs) (now : Nat) :
    Except StoreErr (ProjectStore × Nat) :=
  match enforceQuota s now with
  | .error e => .error e
  | .ok s1 => insertEventWithConn s1 a now

/-- `ProjectStore.record_file_transition` (project_db.py:811-898).  SQLite
event ids are positive, so the truthiness tests on `last_event_id` are
modelled by the `Option` alone. -/
def recordFileTransition (s0 : ProjectStore) (sessionId : Nat)
    (source path afterHash : String) (now : Nat) :
    Except StoreErr (ProjectStore × Option Nat) :=
  let filePath := posixOf path
  let safeAfter := if afterHash = "" then DELETED_FILE_HASH else afterHash
  match enforceQuota s0 now with
  | .error e => .error e
  | .ok s =>
    let st? := s.fileState.find? fun r => r.path == filePath
    let beforeHash := match st? with | some st => st.currentHash | none => DELETED_FILE_HASH
    let baselineHash := match st? with | some st => st.baselineHash | none => DELETED_FILE_HASH
    let previousEventId := match st? with | some st => st.lastEventId | none => none
    if beforeHash = safeAfter then .ok (s, none)
    else
      let isRevert := s.fileHashHistory.contains (filePath, safeAfter)
      let isClean : Nat := if safeAfter = baselineHash then 1 else 0
      let summary :=
        if isRevert then
          if isClean = 1 then
            "Last changes were reverted for " ++ filePath ++ "; file returned to baseline."
          else
            "Last changes were reverted for " ++ filePath ++ "; file returned to a previous state."
        else "File changed: " ++ filePath ++ "."
      let eventType := if isRevert then "revert" else "code_change"
      let args : InsertArgs :=
        { sessionId := sessionId
          eventType := eventType
          summary := summary
          filesTouched := some [filePath]
          source := source
          toolName := none
          toolPurpose := none
          toolResult := none
          decisionSummary := none
          beforeHash := some beforeHash
          afterHash := some safeAfter
          revertedEventId := if isRevert then previousEventId else none
          isEffective := 1 }
      match insertEventWithConn s args now with
      | .error e => .error e
      | .ok (s1, eid) =>
        let s2 : ProjectStore :=
          match previousEventId with
          | some pid =>
            { s1 with events := s1.events.map fun e =>
                if e.id = pid then
                  { e with isEffective := 0
                           revertedByEventId :=
                             if isRevert then some eid else e.revertedByEventId }
                else e }
          | none => s1
        let s3 := { s2 with
          fileState :=
            if s2.fileState.any fun r => r.path == filePath then
              s2.fileState.map fun r =>
                if r.path == filePath then
                  { r with currentHash := safeAfter
                           lastEventId := some eid
                           isClean := isClean
                           updatedAt := now }
                else r
            else
              s2.fileState ++
                [{ path := filePath
                   currentHash := safeAfter
                   baselineHash := baselineHash
                   lastEventId := some eid
                   isClean := isClean
                   updatedAt := now }],
          fileHashHistory :=
            if s2.fileHashHistory.contains (filePath, safeAfter) then s2.fileHashHistory
            else s2.fileHashHistory ++ [(filePath, safeAfter)] }
        .ok (s3, some eid)

/-- `SELECT … FROM events ORDER BY id DESC` (project_db.py:936-944). -/
def sortEventsDesc (l : List EventRow) : List EventRow :=
  List.insertionSort (fun a b : EventRow => b.id ≤ a.id) l

/-- The dictionary `ProjectStore.status_snapshot` returns
(project_db.py:900-967). -/
structure Snapshot where
  activeSession : Option SessionRow
  events : List EventRow
  lastRevert : Option EventRow
  effectiveChangedFiles : Nat
  storageUsedBytes : Nat
  deriving DecidableEq

/-- `ProjectStore.status_snapshot`: the recent events are read from the whole
`events` table with no session filter. -/
def statusSnapshot (s : ProjectStore) (recentLimit : Nat) : Snapshot :=
  { activeSession := getActiveSession s,
    events := (sortEventsDesc s.events).take recentLimit,
    lastRevert := (sortEventsDesc (s.events.filter fun e => e.eventType == "revert")).head?,
    effectiveChangedFiles := (s.fileState.filter fun f => f.isClean == 0).length,
    storageUsedBytes := s.usage }

/-! ### MCP server tools (src/context_agent/mcp_server.py) -/

/-- Errors a tool handler produces: explicit `MCPError(code, message)`and
uncaught Python exceptions, which `MCPServer.serve` (mcp_server.py:300-318)
reports as JSON-RPC `-32603` internal errors. -/
inductive HandlerErr where
  | mcp (code : Int) (message : String)
  /-- An uncaught `StorageCapError` / `ValueError` escaping the store. -/
  | uncaughtStore (e : StoreErr)
  /-- `AttributeError`: a `ProjectStore` method that does not exist. -/
  | attributeMissing (method : String)
  deriving DecidableEq

/-- The `arguments` object of a `tools/call append_event` request, already
shaped by the JSON schema (absent keys are `none`). -/
structure AppendArgs where
  sessionId : Option Nat
  eventType : Option String
  summary : Option String
  filesTouched : Option (List String)
  decision : Bool
  toolName : Option String
  toolResult : Option String
  client : Option String
  sourceDetail : Option String
  deriving DecidableEq

/-- Session resolution of `append_event` (mcp_server.py:129-131): the
`session_id` argument, else the active session. -/
def resolveSession (s : ProjectStore) (a : AppendArgs) : Option Nat :=
  match a.sessionId with
  | some v => some v
  | none => (getActiveSession s).map SessionRow.id

/-- The `append_event` tool (mcp_server.py:128-169).  On success the result
payload is `{ok: true, event_id, session_id}`, returned here as
`(store, event_id, session_id)`. -/
def appendEventTool (s : ProjectStore) (a : AppendArgs) (now : Nat) :
    Except HandlerErr (ProjectStore × Nat × Nat) :=
  match resolveSession s a with
  | none => .error (.mcp (-32010) "No active session. Run `ctx start` first.")
  | some sid =>
    let eventType0 := pyStrip (a.eventType.getD "task_status")
    let eventType := if EVENT_TYPES.contains eventType0 then eventType0 else "task_status"
    let summary := pyStrip (a.summary.getD "")
    if summary = "" then .error (.mcp (-32602) "summary is required")
    else
      let client := lowerStr (a.client.getD "unknown")
      let source0 :=
        if client = "cursor" ∨ client = "claude" then "mcp:" ++ client else "mcp:unknown"
      let source :=
        match optTruthy a.sourceDetail with
        | some d => source0 ++ ":" ++ (⟨d.data.take 40⟩ : String)
        | none => source0
      let args : InsertArgs :=
        { sessionId := sid
          eventType := eventType
          summary := summary
          filesTouched := some (a.filesTouched.getD [])
          source := source
          toolName := optTruthy a.toolName
          toolPurpose := none
          toolResult := optTruthy a.toolResult
          decisionSummary := if a.decision then some summary else none
          beforeHash := none
          afterHash := none
          revertedEventId := none
          isEffective := 1 }
      match insertEvent s args now with
      | .error e => .error (.uncaughtStore e)
      | .ok (s1, eid) =>
        let s2 :=
          if client = "cursor" ∨ client = "claude" then
            updateSourceStatus s1 sid ("mcp:" ++ client) "available"
          else s1
        .ok (s2, eid, sid)

/-- The `start_chat_session` tool (mcp_server.py:171-187). -/
def startChatSessionTool (s : ProjectStore) (clientArg : Option String)
    (externalSessionRef : Option String) (now : Nat) :
    Except HandlerErr (ProjectStore × Nat) :=
  let client := lowerStr (pyStrip (clientArg.getD ""))
  if ¬(client = "cursor" ∨ client = "claude") then
    .error (.mcp (-32602) "client must be 'cursor' or 'claude'")
  else
    match getActiveSession s with
    | some act =>
      match optTruthy externalSessionRef with
      | some _ =>
        -- mcp_server.py:180 calls `self.store.set_session_external_ref(...)`,
        -- but `ProjectStore` (src/context_agent/project_db.py) defines no
        -- such method anywhere: the call raises `AttributeError`, which
        -- `serve` reports as a JSON-RPC `-32603` internal error.
        .error (.attributeMissing "set_session_external_ref")
      | none =>
        .ok (updateSourceStatus s act.id ("mcp:" ++ client) "available", act.id)
    | none =>
      let res := createSession s client (optTruthy externalSessionRef) now
      .ok (updateSourceStatus res.1 res.2 ("mcp:" ++ client) "available", res.2)

/-- The `stop_chat_session` tool (mcp_server.py:189-194). -/
def stopChatSessionTool (s : ProjectStore) (sessionId : Option Nat) (now : Nat) :
    Except HandlerErr (ProjectStore × Nat) :=
  match sessionId with
  | none => .error (.mcp (-32602) "session_id is required")
  | some sid => .ok (setSessionState s sid "stopped" now, sid)

/-- One entry of the `recent_events` list built by `get_context`
(mcp_server.py:107-116).  `int(row["is_effective"] or 0)` is the identity on
this NOT NULL column. -/
structure EventView where
  eventType : String
  summary : String
  source : String
  createdAt : Nat
  isEffective : Nat
  deriving DecidableEq

/-- The projection of an event row into the `get_context` payload. -/
def eventView (e : EventRow) : EventView :=
  { eventType := e.eventType
    summary := e.summary
    source := e.source
    createdAt := e.createdAt
    isEffective := e.isEffective }

/-- The clamp of `max_events` to `[1, 100]` (mcp_server.py:99-103). -/
def clampMaxEvents (m : Int) : Nat :=
  if m < 1 then 1 else if m > 100 then 100 else m.toNat

/-- The payload `get_context` returns (mcp_server.py:117-126). -/
structure GetContextPayload where
  lastUpdatedAt : Option Nat
  recentEvents : List EventView
  effectiveChangedFiles : Option Nat
  deriving DecidableEq

/-- The `get_context` tool (mcp_server.py:98-126). -/
def getContextTool (s : ProjectStore) (maxEvents : Int) (includeEffectiveState : Bool) :
    GetContextPayload :=
  let snap := statusSnapshot s (clampMaxEvents maxEvents)
  { lastUpdatedAt := s.projectLastUpdatedAt
    recentEvents := snap.events.map eventView
    effectiveChangedFiles :=
      if includeEffectiveState then some snap.effectiveChangedFiles else none }

/-! ### Concrete stores and inputs used to evaluate the claims -/

/-- A freshly initialised, empty per-project store (project root `/proj`,
default 500 MiB cap; one byte of growth per insert and no vacuum gain keep
the arithmetic visible). -/
def baseStore : ProjectStore :=
  { sessions := []
    events := []
    fileState := []
    fileHashHistory := []
    toolUsage := []
    decisions := []
    sourceStatus := []
    log := []
    rollups := 0
    nextSessionId := 1
    nextEventId := 1
    recordingState := "stopped"
    projectLastUpdatedAt := none
    projectUpdatedAt := 0
    cap := 524288000
    usage := 0
    storageUsedBytes := 0
    insertCost := 1
    vacuumGain := 0
    projectRoot := ["proj"] }

/-- A running session as `create_session` writes it. -/
def runningSession1 : SessionRow :=
  { id := 1
    agent := "cursor"
    startedAt := 0
    stoppedAt := none
    state := "running"
    externalSessionRef := none
    lastUpdatedAt := some 0 }

/-- `baseStore` after one session has been started. -/
def sessionStore : ProjectStore :=
  { baseStore with
    sessions := [runningSession1]
    nextSessionId := 2
    recordingState := "recording" }

/-- `running_count`: how many sessions are in state `"running"`. -/
def runningCount (s : ProjectStore) : Nat :=
  (s.sessions.filter fun t => t.state == "running").length

/-- The event row the fresh-insert branch of `_insert_event_with_conn`
writes (a named restatement of that branch, used to reason about it). -/
def newEventRow (s : ProjectStore) (a : InsertArgs) (now : Nat) : EventRow :=
  { id := s.nextEventId
    sessionId := a.sessionId
    eventType := safeTypeOf a.eventType
    summary := normalize_summary a.summary SUMMARY_MAX_CHARS
    filesTouched := sanitizeFiles s.projectRoot (a.filesTouched.getD [])
    beforeHash := a.beforeHash
    afterHash := a.afterHash
    revertedEventId := a.revertedEventId
    revertedByEventId := none
    isEffective := a.isEffective
    source := a.source
    createdAt := now
    updatedAt := now
    dedupeHash := insertFingerprint s a }

/-- The store the fresh-insert branch of `_insert_event_with_conn` returns
(a named restatement of that branch, used to reason about it). -/
def freshInsertStore (s : ProjectStore) (a : InsertArgs) (now : Nat) : ProjectStore :=
  { s with
    events := s.events ++ [newEventRow s a now],
    toolUsage :=
      match optTruthy a.toolName with
      | some tn => s.toolUsage ++ [(s.nextEventId, tn)]
      | none => s.toolUsage,
    decisions :=
      if safeTypeOf a.eventType = "decision_made" ∨ (optTruthy a.decisionSummary).isSome then
        s.decisions ++
          [(s.nextEventId,
            (optTruthy a.decisionSummary).getD (normalize_summary a.summary SUMMARY_MAX_CHARS))]
      else s.decisions,
    sessions := s.sessions.map fun t =>
      if t.id = a.sessionId then { t with lastUpdatedAt := some now } else t,
    projectLastUpdatedAt := some now,
    projectUpdatedAt := now,
    log := s.log ++ [s.nextEventId],
    usage := s.usage + s.insertCost,
    storageUsedBytes := s.usage + s.insertCost,
    nextEventId := s.nextEventId + 1 }

/-- The store the dedupe branch of `_insert_event_with_conn` returns: only
`updated_at` of the hit row (plus the session / project timestamps). -/
def dedupeHitStore (s : ProjectStore) (sessionId hitId : Nat) (now : Nat) : ProjectStore :=
  { s with
    events := s.events.map fun e => if e.id = hitId then { e with updatedAt := now } else e,
    sessions := s.sessions.map fun t =>
      if t.id = sessionId then { t with lastUpdatedAt := some now } else t,
    projectLastUpdatedAt := some now,
    projectUpdatedAt := now }

/-- The revert-pointer invariant of the event log: ids are below the
autoincrement counter, revert pointers and `file_state.last_event_id`
references stay below it, and every event some `reverted_event_id` points at
has `is_effective = 0`. -/
def PointerInv (s : ProjectStore) : Prop :=
  (∀ e ∈ s.events, e.id < s.nextEventId) ∧
  (∀ e ∈ s.events, ∀ pid, e.revertedEventId = some pid → pid < s.nextEventId) ∧
  (∀ f ∈ s.fileState, ∀ lid, f.lastEventId = some lid → lid < s.nextEventId) ∧
  (∀ t ∈ s.events, ∀ pid, t.revertedEventId = some pid →
    ∀ e ∈ s.events, e.id = pid → e.isEffective = 0)

/-- One step of the session operations the RPC server performs: a successful
`start_chat_session`, a successful `stop_chat_session`, or a direct
`set_session_state` to `"stopping"` or `"stopped"` (what the recorder and
the stop path use). -/
inductive SessionStep : ProjectStore → ProjectStore → Prop where
  | startChat {s s' : ProjectStore} (clientArg externalSessionRef : Option String)
      (now sid : Nat)
      (h : startChatSessionTool s clientArg externalSessionRef now = .ok (s', sid)) :
      SessionStep s s'
  | stopChat {s s' : ProjectStore} (sessionId : Option Nat) (now sid : Nat)
      (h : stopChatSessionTool s sessionId now = .ok (s', sid)) :
      SessionStep s s'
  | setState {s : ProjectStore} (sessionId : Nat) (st : String) (now : Nat)
      (h : st = "stopping" ∨ st = "stopped") :
      SessionStep s (setSessionState s sessionId st now)

/-- `sessionStore` with a 10-byte cap, 9 bytes already used and a 5-byte
insert: the pre-insert quota check passes, the insert pushes usage past the
cap. -/
def capStore : ProjectStore :=
  { sessionStore with cap := 10, usage := 9, insertCost := 5 }

/-- A plain `append`-style event payload for session 1. -/
def plainArgs : InsertArgs :=
  { sessionId := 1
    eventType := "task_status"
    summary := "note"
    filesTouched := none
    source := "test"
    toolName := none
    toolPurpose := none
    toolResult := none
    decisionSummary := none
    beforeHash := none
    afterHash := none
    revertedEventId := none
    isEffective := 1 }

/-- The same payload touching the absolute path `/proj/a.txt`, which lies
inside the project root `/proj`. -/
def absPathArgs : InsertArgs :=
  { plainArgs with
    eventType := "code_change"
    summary := "edited a file"
    filesTouched := some ["/proj/a.txt"] }

/-- A store whose file `a.txt` sits at its baseline hash `b0`. -/
def trackedStore : ProjectStore :=
  { sessionStore with
    fileState := [{ path := "a.txt", currentHash := "b0", baselineHash := "b0",
                    lastEventId := none, isClean := 1, updatedAt := 0 }]
    fileHashHistory := [("a.txt", "b0")] }

/-- Two file transitions on `trackedStore`: `b0 → h1` then `h1 → h2`, both
fresh hashes, so both are plain `code_change` events. -/
def twoChangesRun : Except StoreErr (ProjectStore × Option Nat) :=
  match recordFileTransition trackedStore 1 "filesystem" "a.txt" "h1" 10 with
  | .ok (s1, _) => recordFileTransition s1 1 "filesystem" "a.txt" "h2" 20
  | .error e => .error e

/-- The store after `twoChangesRun`. -/
def twoChangesStore : ProjectStore :=
  match twoChangesRun with
  | .ok (s, _) => s
  | .error _ => trackedStore

/-- `append_event` arguments with every key absent. -/
def emptyAppendArgs : AppendArgs :=
  { sessionId := none
    eventType := none
    summary := none
    filesTouched := none
    decision := false
    toolName := none
    toolResult := none
    client := none
    sourceDetail := none }

/-- `append_event` arguments carrying only a summary. -/
def summaryAppendArgs : AppendArgs :=
  { emptyAppendArgs with summary := some "wired up the parser tests" }

/-- The file-transition scenario of the revert-closure law: a store whose
file `p` starts at baseline hash `B`.  The storage cap is 100 bytes (far
above the two 1-byte inserts of the scenario, so no quota action triggers;
a small literal keeps the quota arithmetic small). -/
def revertStart (p B : String) : ProjectStore :=
  { sessionStore with
    cap := 100
    fileState := [{ path := posixOf p, currentHash := B, baselineHash := B,
                    lastEventId := none, isClean := 1, updatedAt := 0 }]
    fileHashHistory := [(posixOf p, B)] }

/-- A cross-session history: session 1 records an event and stops, then
session 2 records another event. -/
def twoSessionStore : ProjectStore :=
  let s1 := (createSession baseStore "cursor" none 0).1
  let s2 :=
    match insertEvent s1 { plainArgs with summary := "first session event" } 1 with
    | .ok (s, _) => s
    | .error _ => s1
  let s3 := setSessionState s2 1 "stopped" 2
  let s4 := (createSession s3 "claude" none 3).1
  match insertEvent s4
      { plainArgs with sessionId := 2, summary := "second session event" } 4 with
  | .ok (s, _) => s
  | .error _ => s4

/-- The result of one plain insert into `sessionStore`. -/
def quotaWitnessRun : Except StoreErr (ProjectStore × Nat) :=
  insertEvent sessionStore plainArgs 5

/-- The store `quotaWitnessRun` produces. -/
def quotaWitnessStore : ProjectStore :=
  match quotaWitnessRun with
  | .ok (s, _) => s
  | .error _ => sessionStore

/-- A placeholder event row (used only as a `headD` default). -/
def dummyEvent : EventRow :=
  { id := 0
    sessionId := 0
    eventType := "task_status"
    summary := "-"
    filesTouched := []
    beforeHash := none
    afterHash := none
    revertedEventId := none
    revertedByEventId := none
    isEffective := 1
    source := "-"
    createdAt := 0
    updatedAt := 0
    dedupeHash := "-" }

/-- The first (session-1) event of `twoSessionStore`. -/
def crossSessionEvent : EventRow :=
  twoSessionStore.events.headD dummyEvent

/-- The store `start_chat_session` produces on an empty project. -/
def startChatWitnessStore : ProjectStore :=
  match startChatSessionTool baseStore (some "cursor") none 0 with
  | .ok (s, _) => s
  | .error _ => baseStore

instance : IsTotal EventRow (fun a b => b.id ≤ a.id) :=
  ⟨fun a b => le_total b.id a.id⟩

instance : IsTrans EventRow (fun a b => b.id ≤ a.id) :=
  ⟨fun _ _ _ h1 h2 => le_trans h2 h1⟩


/-- The first quota pass of the revert-closure scenario: `revertStart` after
`_enforce_quota` refreshed the measured size and timestamp. -/
def c5Quota (p B : String) (t1 : Nat) : ProjectStore :=
  { revertStart p B with storageUsedBytes := 0, projectUpdatedAt := t1 }

/-- The `InsertArgs` `record_file_transition` builds for the fresh `H1`
transition of the revert-closure scenario. -/
def c5Args1 (p B H1 : String) : InsertArgs :=
  { sessionId := 1
    eventType := "code_change"
    summary := "File changed: " ++ posixOf p ++ "."
    filesTouched := some [posixOf p]
    source := "filesystem"
    toolName := none
    toolPurpose := none
    toolResult := none
    decisionSummary := none
    beforeHash := some B
    afterHash := some H1
    revertedEventId := none
    isEffective := 1 }

/-- The store after the first (code_change) call of the scenario. -/
def c5State1 (p B H1 : String) (t1 : Nat) : ProjectStore :=
  { freshInsertStore (c5Quota p B t1) (c5Args1 p B H1) t1 with
    fileState := [{ path := posixOf p
                    currentHash := H1
                    baselineHash := B
                    lastEventId := some 1
                    isClean := 0
                    updatedAt := t1 }],
    fileHashHistory := [(posixOf p, B), (posixOf p, H1)] }


/-- The tail of `recordFileTransition` after the quota pass, as a function of
the store the quota step returned (project_db.py:709-766). -/
def recordFileTransitionTail (s : ProjectStore) (sessionId : Nat)
    (source path afterHash : String) (now : Nat) :
    Except StoreErr (ProjectStore × Option Nat) :=
  let filePath := posixOf path
  let safeAfter := if afterHash = "" then DELETED_FILE_HASH else afterHash
  let st? := s.fileState.find? fun r => r.path == filePath
  let beforeHash := match st? with | some st => st.currentHash | none => DELETED_FILE_HASH
  let baselineHash := match st? with | some st => st.baselineHash | none => DELETED_FILE_HASH
  let previousEventId := match st? with | some st => st.lastEventId | none => none
  if beforeHash = safeAfter then .ok (s, none)
  else
    let isRevert := s.fileHashHistory.contains (filePath, safeAfter)
    let isClean : Nat := if safeAfter = baselineHash then 1 else 0
    let summary :=
      if isRevert then
        if isClean = 1 then
          "Last changes were reverted for " ++ filePath ++ "; file returned to baseline."
        else
          "Last changes were reverted for " ++ filePath ++ "; file returned to a previous state."
      else "File changed: " ++ filePath ++ "."
    let eventType := if isRevert then "revert" else "code_change"
    let args : InsertArgs :=
      { sessionId := sessionId
        eventType := eventType
        summary := summary
        filesTouched := some [filePath]
        source := source
        toolName := none
        toolPurpose := none
        toolResult := none
        decisionSummary := none
        beforeHash := some beforeHash
        afterHash := some safeAfter
        revertedEventId := if isRevert then previousEventId else none
        isEffective := 1 }
    match insertEventWithConn s args now with
    | .error e => .error e
    | .ok (s1, eid) =>
      let s2 : ProjectStore :=
        match previousEventId with
        | some pid =>
          { s1 with events := s1.events.map fun e =>
              if e.id = pid then
                { e with isEffective := 0
                         revertedByEventId :=
                           if isRevert then some eid else e.revertedByEventId }
              else e }
        | none => s1
      let s3 := { s2 with
        fileState :=
          if s2.fileState.any fun r => r.path == filePath then
            s2.fileState.map fun r =>
              if r.path == filePath then
                { r with currentHash := safeAfter
                         lastEventId := some eid
                         isClean := isClean
                         updatedAt := now }
              else r
          else
            s2.fileState ++
              [{ path := filePath
                 currentHash := safeAfter
                 baselineHash := baselineHash
                 lastEventId := some eid
                 isClean := isClean
                 updatedAt := now }],
        fileHashHistory :=
          if s2.fileHashHistory.contains (filePath, safeAfter) then s2.fileHashHistory
          else s2.fileHashHistory ++ [(filePath, safeAfter)] }
      .ok (s3, some eid)


/-- The quota store of the second (revert) call of the scenario. -/
def c5Quota2 (p B H1 : String) (t1 t2 : Nat) : ProjectStore :=
  { c5State1 p B H1 t1 with
    storageUsedBytes := (c5State1 p B H1 t1).usage, projectUpdatedAt := t2 }

/-- The `InsertArgs` of the revert transition back to `B`. -/
def c5Args2 (p B H1 : String) : InsertArgs :=
  { sessionId := 1
    eventType := "revert"
    summary := "Last changes were reverted for " ++ posixOf p ++ "; file returned to baseline."
    filesTouched := some [posixOf p]
    source := "filesystem"
    toolName := none
    toolPurpose := none
    toolResult := none
    decisionSummary := none
    beforeHash := some H1
    afterHash := some B
    revertedEventId := some 1
    isEffective := 1 }

/-- The store after the revert call: event 1 is marked ineffective and
points at event 2, the FileState row is clean at `B`. -/
def c5State2 (p B H1 : String) (t1 t2 : Nat) : ProjectStore :=
  { freshInsertStore (c5Quota2 p B H1 t1 t2) (c5Args2 p B H1) t2 with
    events := [{ newEventRow (c5Quota p B t1) (c5Args1 p B H1) t1 with
                 isEffective := 0, revertedByEventId := some 2 },
               newEventRow (c5Quota2 p B H1 t1 t2) (c5Args2 p B H1) t2],
    fileState := [{ path := posixOf p
                    currentHash := B
                    baselineHash := B
                    lastEventId := some 2
                    isClean := 1
                    updatedAt := t2 }],
    fileHashHistory := [(posixOf p, B), (posixOf p, H1)] }


/-- The store one `record_file_transition` call produces from `trackedStore`. -/
def oneChangeStore : ProjectStore :=
  match recordFileTransition trackedStore 1 "filesystem" "a.txt" "h1" 10 with
  | .ok (s1, _) => s1
  | .error _ => trackedStore


/-! ### Theorems -/

/-- Claim C2: per the spec, `start_chat_session` with a valid client while a
session is running must succeed, return the running session id, and record
`external_session_ref` on that session.  The code is wrong: `ProjectStore`
defines no `set_session_external_ref` method, so the recorded call at
mcp_server.py:180 raises `AttributeError` (surfaced as JSON-RPC `-32603`)
whenever the ref is provided, while the same call without a ref succeeds and
reuses session 1. -/
theorem C2_start_chat_external_ref_bug :
    startChatSessionTool sessionStore (some "cursor") (some "ref-1") 5 =
      .error (.attributeMissing "set_session_external_ref") ∧
    (startChatSessionTool sessionStore (some "cursor") none 5).map Prod.snd = .ok 1 ∧
    runningCount sessionStore = 1 := by
  exact ⟨by decide, by decide, by decide⟩

/-- Claim C3, counterexample: with cap 10, usage 9 and a 5-byte insert,
`insert_event` returns normally (no `StorageCapExceeded`) yet leaves the
memory directory at 14 bytes, above the 10-byte cap — the quota check runs
before the insert, not after. -/
theorem C3_counterexample :
    (insertEvent capStore plainArgs 5).map (fun r => (r.1.usage, r.1.cap)) = .ok (14, 10) ∧
    capStore.cap < 14 := by
  exact ⟨by decide, by decide⟩

/-- Claim C1, counterexample: after the fresh transitions `b0 → h1 → h2` on
`a.txt`, event 1 (the `h1` change) has `is_effective = 0`, yet no event's
`reverted_event_id` points at it — a plain `code_change` also clears the
previous event's flag, so `is_effective = 0` is not equivalent to being the
target of a `reverted_event_id`. -/
theorem C1_counterexample :
    twoChangesRun = .ok (twoChangesStore, some 2) ∧
    (∃ e ∈ twoChangesStore.events, e.id = 1 ∧ e.isEffective = 0) ∧
    ∀ e ∈ twoChangesStore.events, e.revertedEventId ≠ some 1 := by
  exact ⟨by decide, by decide, by decide⟩

/-- Claim C6, counterexample: the absolute input `/proj/a.txt` lies inside
the project root `/proj` (its root-relative form is `a.txt`), yet the stored
`files_touched` keeps the POSIX absolute form — absolute inputs are never
made repo-relative. -/
theorem C6_counterexample :
    (insertEventWithConn sessionStore absPathArgs 5).map
      (fun r => r.1.events.map EventRow.filesTouched) = .ok [["/proj/a.txt"]] ∧
    dropRootPref sessionStore.projectRoot (splitPath "/proj/a.txt") = some ["a.txt"] ∧
    ("/proj/a.txt" : String) ≠ "a.txt" := by
  exact ⟨by decide, by decide, by decide⟩

/-- Claim C7, counterexample: `create_session` is one of the claim's listed
operations, and it never checks for an already-running session: two direct
calls leave two sessions in state `"running"`. -/
theorem C7_counterexample :
    runningCount (createSession (createSession baseStore "cursor" none 0).1 "claude" none 1).1
      = 2 := by
  decide

/-- Claim C9, counterexample: with no `session_id` argument, no running
session and no summary, `append_event` fails with `-32010` — not with
`-32602`, although the summary is missing too; the session check runs
first. -/
theorem C9_counterexample :
    emptyAppendArgs.summary = none ∧
    appendEventTool baseStore emptyAppendArgs 5 =
      .error (.mcp (-32010) "No active session. Run `ctx start` first.") := by
  exact ⟨by decide, by decide⟩

theorem compact_spec (s : ProjectStore) (now : Nat) :
    (compact s now).cap = s.cap ∧ (compact s now).usage = s.usage ∧
    (compact s now).vacuumGain = s.vacuumGain ∧
    (compact s now).insertCost = s.insertCost ∧
    (compact s now).projectRoot = s.projectRoot ∧
    (compact s now).nextEventId = s.nextEventId ∧
    (compact s now).fileState = s.fileState ∧
    (compact s now).fileHashHistory = s.fileHashHistory ∧
    (compact s now).sessions = s.sessions ∧
    (compact s now).log = s.log ∧
    ∀ e ∈ (compact s now).events, e ∈ s.events := by
  simp only [compact]
  split
  · exact ⟨rfl, rfl, rfl, rfl, rfl, rfl, rfl, rfl, rfl, rfl, fun e he => he⟩
  · exact ⟨rfl, rfl, rfl, rfl, rfl, rfl, rfl, rfl, rfl, rfl,
      fun e he => (List.mem_filter.mp he).1⟩

theorem enforceQuota_ok_fields (s : ProjectStore) (now : Nat) (s1 : ProjectStore)
    (h : enforceQuota s now = .ok s1) :
    s1.usage < s.cap ∧ s1.cap = s.cap ∧ s1.insertCost = s.insertCost ∧
    s1.projectRoot = s.projectRoot ∧ s1.nextEventId = s.nextEventId ∧
    s1.fileState = s.fileState ∧ s1.fileHashHistory = s.fileHashHistory ∧
    s1.sessions = s.sessions ∧ s1.log = s.log ∧
    ∀ e ∈ s1.events, e ∈ s.events := by
  obtain ⟨hcap, hu, hv, hic, hpr, hne, hfs, hfh, hse, hlg, hev⟩ := compact_spec s now
  simp only [enforceQuota] at h
  split at h
  · split at h
    · exact absurd h (by simp)
    · rename_i hover
      rw [Except.ok.injEq] at h
      subst h
      push_neg at hover
      exact ⟨by simpa [hcap] using hover, hcap, hic, hpr, hne, hfs, hfh, hse, hlg, hev⟩
  · split at h
    · exact absurd h (by simp)
    · rename_i hover
      rw [Except.ok.injEq] at h
      subst h
      push_neg at hover
      exact ⟨hover, rfl, rfl, rfl, rfl, rfl, rfl, rfl, rfl, fun e he => he⟩

theorem insertEventWithConn_usage (s : ProjectStore) (a : InsertArgs) (now : Nat)
    (s' : ProjectStore) (eid : Nat) (h : insertEventWithConn s a now = .ok (s', eid)) :
    s'.usage = s.usage ∨ s'.usage = s.usage + s.insertCost := by
  simp only [insertEventWithConn] at h
  split at h
  · exact absurd h (by simp)
  · split at h
    · rw [Except.ok.injEq, Prod.mk.injEq] at h
      obtain ⟨hs, -⟩ := h
      left; rw [← hs]
    · rw [Except.ok.injEq, Prod.mk.injEq] at h
      obtain ⟨hs, -⟩ := h
      right; rw [← hs]

/-- Claim C3 (amended): `_enforce_quota` runs BEFORE `_insert_event_with_conn`
writes anything, so a call of `insert_event` that returns normally started
strictly below the cap, and the final directory size can exceed the cap by at
most the bytes the insert itself wrote: final usage `< cap + insertCost`
(rather than the claimed `≤ cap`). -/
theorem C3_quota_checked_before_insert (s : ProjectStore) (a : InsertArgs) (now : Nat)
    (s' : ProjectStore) (eid : Nat) (h : insertEvent s a now = .ok (s', eid)) :
    s'.usage < s.cap + s.insertCost := by
  simp only [insertEvent] at h
  split at h
  · exact absurd h (by simp)
  · rename_i s1 heq
    obtain ⟨hlt, hcap, hic, -⟩ := enforceQuota_ok_fields s now s1 heq
    rcases insertEventWithConn_usage s1 a now s' eid h with hu | hu
    · calc s'.usage = s1.usage := hu
        _ < s.cap := hlt
        _ ≤ s.cap + s.insertCost := Nat.le_add_right _ _
    · calc s'.usage = s1.usage + s1.insertCost := hu
        _ = s1.usage + s.insertCost := by rw [hic]
        _ < s.cap + s.insertCost := Nat.add_lt_add_right hlt _

/-- Witness for the amended C3 at a concrete input. -/
theorem C3_witness :
    quotaWitnessRun = .ok (quotaWitnessStore, 1) ∧
    quotaWitnessStore.usage < sessionStore.cap + sessionStore.insertCost := by
  have heq : quotaWitnessRun = .ok (quotaWitnessStore, 1) := by decide
  exact ⟨heq, C3_quota_checked_before_insert sessionStore plainArgs 5 quotaWitnessStore 1 heq⟩
/-- When no earlier event of the session carries the same fingerprint, the
insert takes the fresh branch. -/
theorem insertEventWithConn_fresh (s : ProjectStore) (a : InsertArgs) (now : Nat)
    (hsum : normalize_summary a.summary SUMMARY_MAX_CHARS ≠ "")
    (hfresh : ∀ e ∈ s.events,
      ¬(e.sessionId = a.sessionId ∧ e.dedupeHash = insertFingerprint s a)) :
    insertEventWithConn s a now = .ok (freshInsertStore s a now, s.nextEventId) := by
  have hfilter : (s.events.filter fun e =>
      e.sessionId == a.sessionId && e.dedupeHash == insertFingerprint s a) = [] := by
    rw [List.filter_eq_nil_iff]
    intro e he
    have h := hfresh e he
    simp only [Bool.and_eq_true, beq_iff_eq]
    exact fun hand => h hand
  simp only [insertEventWithConn, if_neg hsum, hfilter, latestBy, List.foldl,
    freshInsertStore, newEventRow]

/-- When the dedupe lookup finds a row inside the 30-second window, the
insert collapses onto it. -/
theorem insertEventWithConn_dedupe (s : ProjectStore) (a : InsertArgs) (now : Nat)
    (ex : EventRow)
    (hsum : normalize_summary a.summary SUMMARY_MAX_CHARS ≠ "")
    (hmatch : latestBy (s.events.filter fun e =>
      e.sessionId == a.sessionId && e.dedupeHash == insertFingerprint s a) = some ex)
    (hwin : now - ex.createdAt ≤ DEDUPE_WINDOW_SECONDS) :
    insertEventWithConn s a now = .ok (dedupeHitStore s a.sessionId ex.id now, ex.id) := by
  simp only [insertEventWithConn, if_neg hsum, hmatch, if_pos hwin, dedupeHitStore]

/-- Claim C4: inserting, in the same session, a second payload that agrees on
(event_type, summary, files, before_hash, after_hash, reverted_event_id,
is_effective) within 30 seconds of the first row's `created_at` creates
exactly one row: the first call appends one event, the second returns the
same id, only refreshes that row's `updated_at`, appends no row and writes no
second JSONL line. -/
theorem C4_dedupe_idempotent (s : ProjectStore) (a1 a2 : InsertArgs) (t1 t2 : Nat)
    (hsess : a2.sessionId = a1.sessionId)
    (htype : a2.eventType = a1.eventType)
    (hsumm : a2.summary = a1.summary)
    (hfile : a2.filesTouched = a1.filesTouched)
    (hbef : a2.beforeHash = a1.beforeHash)
    (haft : a2.afterHash = a1.afterHash)
    (hrev : a2.revertedEventId = a1.revertedEventId)
    (heff : a2.isEffective = a1.isEffective)
    (hsum : normalize_summary a1.summary SUMMARY_MAX_CHARS ≠ "")
    (hids : ∀ e ∈ s.events, e.id < s.nextEventId)
    (hfresh : ∀ e ∈ s.events,
      ¬(e.sessionId = a1.sessionId ∧ e.dedupeHash = insertFingerprint s a1))
    (hwin : t2 - t1 ≤ DEDUPE_WINDOW_SECONDS) :
    insertEventWithConn s a1 t1 = .ok (freshInsertStore s a1 t1, s.nextEventId) ∧
    (freshInsertStore s a1 t1).events.length = s.events.length + 1 ∧
    insertEventWithConn (freshInsertStore s a1 t1) a2 t2 =
      .ok (dedupeHitStore (freshInsertStore s a1 t1) a2.sessionId s.nextEventId t2,
           s.nextEventId) ∧
    (dedupeHitStore (freshInsertStore s a1 t1) a2.sessionId s.nextEventId t2).events =
      s.events ++ [{ newEventRow s a1 t1 with updatedAt := t2 }] ∧
    (dedupeHitStore (freshInsertStore s a1 t1) a2.sessionId s.nextEventId t2).log =
      (freshInsertStore s a1 t1).log := by
  have hfp : insertFingerprint (freshInsertStore s a1 t1) a2 = insertFingerprint s a1 := by
    simp only [insertFingerprint, htype, hsumm, hfile, hbef, haft, hrev, heff,
      freshInsertStore]
  have hcall1 := insertEventWithConn_fresh s a1 t1 hsum hfresh
  have hsum2 : normalize_summary a2.summary SUMMARY_MAX_CHARS ≠ "" := by rw [hsumm]; exact hsum
  have hrowmem : (newEventRow s a1 t1).sessionId = a2.sessionId := by
    simp [newEventRow, hsess]
  have hfilter2 : ((freshInsertStore s a1 t1).events.filter fun e =>
      e.sessionId == a2.sessionId &&
        e.dedupeHash == insertFingerprint (freshInsertStore s a1 t1) a2) =
      [newEventRow s a1 t1] := by
    rw [hfp]
    show ((s.events ++ [newEventRow s a1 t1]).filter fun e =>
      e.sessionId == a2.sessionId && e.dedupeHash == insertFingerprint s a1) = _
    rw [List.filter_append]
    have h1 : (s.events.filter fun e =>
        e.sessionId == a2.sessionId && e.dedupeHash == insertFingerprint s a1) = [] := by
      rw [List.filter_eq_nil_iff]
      intro e he
      have h := hfresh e he
      simp only [Bool.and_eq_true, beq_iff_eq, hsess]
      exact fun hand => h hand
    have h2 : (([newEventRow s a1 t1] : List EventRow).filter fun e =>
        e.sessionId == a2.sessionId && e.dedupeHash == insertFingerprint s a1) =
        [newEventRow s a1 t1] := by
      simp [List.filter, newEventRow, hsess]
    rw [h1, h2, List.nil_append]
  have hmatch2 : latestBy ((freshInsertStore s a1 t1).events.filter fun e =>
      e.sessionId == a2.sessionId &&
        e.dedupeHash == insertFingerprint (freshInsertStore s a1 t1) a2) =
      some (newEventRow s a1 t1) := by
    rw [hfilter2]; rfl
  have hwin2 : t2 - (newEventRow s a1 t1).createdAt ≤ DEDUPE_WINDOW_SECONDS := by
    simpa [newEventRow] using hwin
  have hcall2 := insertEventWithConn_dedupe (freshInsertStore s a1 t1) a2 t2
    (newEventRow s a1 t1) hsum2 hmatch2 hwin2
  have hid : (newEventRow s a1 t1).id = s.nextEventId := rfl
  refine ⟨hcall1, by simp [freshInsertStore], by rw [hcall2, hid], ?_, rfl⟩
  show ((freshInsertStore s a1 t1).events.map fun e =>
      if e.id = s.nextEventId then { e with updatedAt := t2 } else e) = _
  show ((s.events ++ [newEventRow s a1 t1]).map fun e =>
      if e.id = s.nextEventId then { e with updatedAt := t2 } else e) = _
  rw [List.map_append]
  congr 1
  · rw [List.map_congr_left (fun e he => if_neg (Nat.ne_of_lt (hids e he)))]
    exact List.map_id' s.events
  · simp [newEventRow]

/-- Witness for C4 at a concrete input. -/
theorem C4_witness :
    insertEventWithConn sessionStore plainArgs 0 =
      .ok (freshInsertStore sessionStore plainArgs 0, 1) ∧
    insertEventWithConn (freshInsertStore sessionStore plainArgs 0) plainArgs 10 =
      .ok (dedupeHitStore (freshInsertStore sessionStore plainArgs 0) 1 1 10, 1) ∧
    (dedupeHitStore (freshInsertStore sessionStore plainArgs 0) 1 1 10).events =
      [{ newEventRow sessionStore plainArgs 0 with updatedAt := 10 }] := by
  have h := C4_dedupe_idempotent sessionStore plainArgs plainArgs 0 10
    rfl rfl rfl rfl rfl rfl rfl rfl (by decide)
    (by intro e he; simp [sessionStore, baseStore] at he)
    (by intro e he; simp [sessionStore, baseStore] at he)
    (by decide)
  exact ⟨h.1, h.2.2.1, h.2.2.2.1⟩

/-- Claim C8: the stored summary of a fresh insert is the first
`SUMMARY_MAX_CHARS = 500` characters of the input with surrounding whitespace
stripped and internal whitespace runs collapsed to single spaces, and is
never empty; when that normalized string is empty the insert fails with
`InvalidArgument` (`ValueError`) and no event row is stored (the transaction
carries no state on error). -/
theorem C8_summary_normalization (s : ProjectStore) (a : InsertArgs) (now : Nat)
    (hfresh : ∀ e ∈ s.events,
      ¬(e.sessionId = a.sessionId ∧ e.dedupeHash = insertFingerprint s a)) :
    (normalize_summary a.summary SUMMARY_MAX_CHARS = "" →
      insertEventWithConn s a now = .error .invalidArgument) ∧
    (normalize_summary a.summary SUMMARY_MAX_CHARS ≠ "" →
      insertEventWithConn s a now = .ok (freshInsertStore s a now, s.nextEventId) ∧
      ∃ r ∈ (freshInsertStore s a now).events, r.id = s.nextEventId ∧
        r.summary =
          (⟨(collapseGo false (stripChars a.summary.data)).take SUMMARY_MAX_CHARS⟩ : String) ∧
        r.summary ≠ "") := by
  constructor
  · intro hempty
    simp only [insertEventWithConn, if_pos hempty]
  · intro hne
    refine ⟨insertEventWithConn_fresh s a now hne hfresh, newEventRow s a now, ?_, rfl, ?_, ?_⟩
    · simp [freshInsertStore]
    · rfl
    · exact hne

/-- Witness for C8 at concrete inputs: a whitespace-only summary fails, a
real one is stored. -/
theorem C8_witness :
    insertEventWithConn sessionStore { plainArgs with summary := " \t " } 3 =
      .error .invalidArgument ∧
    insertEventWithConn sessionStore plainArgs 3 =
      .ok (freshInsertStore sessionStore plainArgs 3, 1) := by
  refine ⟨(C8_summary_normalization sessionStore { plainArgs with summary := " \t " } 3
      (by intro e he; simp [sessionStore, baseStore] at he)).1 (by decide),
    ((C8_summary_normalization sessionStore plainArgs 3
      (by intro e he; simp [sessionStore, baseStore] at he)).2 (by decide)).1⟩

theorem dropWhile_head_false (p : Char → Bool) :
    ∀ (l : List Char) (c : Char) (cs : List Char), l.dropWhile p = c :: cs → p c = false := by
  intro l
  induction l with
  | nil => intro c cs h; simp [List.dropWhile] at h
  | cons x xs ih =>
    intro c cs h
    by_cases hx : p x
    · rw [List.dropWhile_cons_of_pos hx] at h
      exact ih c cs h
    · rw [List.dropWhile_cons_of_neg hx] at h
      rw [List.cons.injEq] at h
      rw [h.1] at hx
      simpa using hx

theorem stripChars_eq_nil (l : List Char) (h : stripChars l = []) :
    ∀ x ∈ l, isPySpace x = true := by
  intro x hx
  unfold stripChars at h
  rw [List.reverse_eq_nil_iff] at h
  rw [List.dropWhile_eq_nil_iff] at h
  rw [← List.takeWhile_append_dropWhile (p := isPySpace) (l := l)] at hx
  rcases List.mem_append.mp hx with hx1 | hx2
  · exact List.mem_takeWhile_imp hx1
  · exact h x (List.mem_reverse.mpr hx2)

theorem stripChars_head (l : List Char) (h : stripChars l ≠ []) :
    ∃ c cs, stripChars l = c :: cs ∧ isPySpace c = false := by
  have hsuf : (l.dropWhile isPySpace).reverse.dropWhile isPySpace <:+
      (l.dropWhile isPySpace).reverse := List.dropWhile_suffix isPySpace
  have hpre : ((l.dropWhile isPySpace).reverse.dropWhile isPySpace).reverse <+:
      l.dropWhile isPySpace := by
    have := List.reverse_prefix.mpr hsuf
    simpa using this
  obtain ⟨t, ht⟩ := hpre
  cases hrr : ((l.dropWhile isPySpace).reverse.dropWhile isPySpace).reverse with
  | nil => exact absurd hrr h
  | cons x xs =>
    rw [hrr] at ht
    cases hl1 : l.dropWhile isPySpace with
    | nil =>
      rw [hl1] at ht
      simp at ht
    | cons c cs =>
      rw [hl1] at ht
      have hx : x = c := by
        have := (List.cons.injEq ..).mp ht
        exact this.1
      refine ⟨x, xs, hrr, ?_⟩
      rw [hx]
      exact dropWhile_head_false isPySpace l c cs hl1

theorem normalize_ne_empty (s : String) (m : Nat) (hm : 0 < m)
    (c : Char) (hc : isPySpace c = false) (hmem : c ∈ s.data) :
    normalize_summary s m ≠ "" := by
  have hnn : stripChars s.data ≠ [] := by
    intro hnil
    rw [stripChars_eq_nil s.data hnil c hmem] at hc
    simp at hc
  obtain ⟨c', cs', hstrip, hc'⟩ := stripChars_head s.data hnn
  obtain ⟨k, rfl⟩ : ∃ k, m = k + 1 := ⟨m - 1, (Nat.succ_pred_eq_of_pos hm).symm⟩
  unfold normalize_summary
  rw [hstrip]
  have hcol : collapseGo false (c' :: cs') = c' :: collapseGo false cs' := by
    simp [collapseGo, hc']
  rw [hcol]
  intro hcontra
  have hdata : (c' :: (collapseGo false cs').take k) = ([] : List Char) := by
    have := congrArg String.data hcontra
    simp at this
  simp at hdata

theorem enforceQuota_skip (s : ProjectStore) (now : Nat)
    (h : s.usage < (85 * s.cap) / 100) :
    enforceQuota s now =
      .ok { s with storageUsedBytes := s.usage, projectUpdatedAt := now } := by
  have hth : ¬ s.usage ≥ (85 * s.cap) / 100 := Nat.not_le.mpr h
  have hle : (85 * s.cap) / 100 ≤ s.cap := by
    calc (85 * s.cap) / 100 ≤ (100 * s.cap) / 100 :=
          Nat.div_le_div_right (Nat.mul_le_mul_right _ (by norm_num))
      _ = s.cap := Nat.mul_div_cancel_left _ (by norm_num)
  have hcap : ¬ s.usage ≥ s.cap := Nat.not_le.mpr (lt_of_lt_of_le h hle)
  simp only [enforceQuota, if_neg hth]
  rw [if_neg hcap]


theorem insertEventWithConn_ok (s : ProjectStore) (a : InsertArgs) (now : Nat)
    (hne : normalize_summary a.summary SUMMARY_MAX_CHARS ≠ "") :
    ∃ s' eid, insertEventWithConn s a now = .ok (s', eid) := by
  simp only [insertEventWithConn, if_neg hne]
  split
  · exact ⟨_, _, rfl⟩
  · exact ⟨_, _, rfl⟩

theorem insertEvent_ok (s : ProjectStore) (a : InsertArgs) (now : Nat)
    (hq : s.usage < (85 * s.cap) / 100)
    (hne : normalize_summary a.summary SUMMARY_MAX_CHARS ≠ "") :
    ∃ s' eid, insertEvent s a now = .ok (s', eid) := by
  obtain ⟨s', eid, h⟩ := insertEventWithConn_ok
    { s with storageUsedBytes := s.usage, projectUpdatedAt := now } a now hne
  refine ⟨s', eid, ?_⟩
  show (match enforceQuota s now with
    | Except.error e => Except.error e
    | Except.ok s1 => insertEventWithConn s1 a now) = Except.ok (s', eid)
  rw [enforceQuota_skip s now hq]
  exact h

theorem pyStrip_normalize_ne (x : String) (h : pyStrip x ≠ "") (m : Nat) (hm : 0 < m) :
    normalize_summary (pyStrip x) m ≠ "" := by
  have hnn : stripChars x.data ≠ [] := by
    intro hnil
    apply h
    show (⟨stripChars x.data⟩ : String) = ""
    rw [hnil]
  obtain ⟨c, cs, hstrip, hc⟩ := stripChars_head x.data hnn
  apply normalize_ne_empty _ m hm c hc
  show c ∈ stripChars x.data
  rw [hstrip]
  exact List.mem_cons_self _ _

/-- Claim C9 (amended): `append_event` fails with `-32010` whenever no
`session_id` argument is given and no session is running; it fails with
`-32602` whenever a session IS resolvable and the summary is missing or
whitespace-only (the session check runs first, so when both are missing the
error is `-32010`, not `-32602`); with a session and a summary it succeeds
returning `(store, event_id, session_id)`; both error paths return before
`insert_event`, so no event is stored. -/
theorem C9_append_event_errors (s : ProjectStore) (a : AppendArgs) (now : Nat) :
    (resolveSession s a = none →
      appendEventTool s a now =
        .error (.mcp (-32010) "No active session. Run `ctx start` first.")) ∧
    (∀ sid, resolveSession s a = some sid → pyStrip (a.summary.getD "") = "" →
      appendEventTool s a now = .error (.mcp (-32602) "summary is required")) ∧
    (∀ sid, resolveSession s a = some sid → pyStrip (a.summary.getD "") ≠ "" →
      s.usage < (85 * s.cap) / 100 →
      ∃ s' eid, appendEventTool s a now = .ok (s', eid, sid)) := by
  refine ⟨?_, ?_, ?_⟩
  · intro hres
    simp only [appendEventTool, hres]
  · intro sid hres hempty
    simp only [appendEventTool, hres, if_pos hempty]
  · intro sid hres hne hq
    simp only [appendEventTool, hres, if_neg hne]
    have hnorm : normalize_summary (pyStrip (a.summary.getD "")) SUMMARY_MAX_CHARS ≠ "" :=
      pyStrip_normalize_ne _ hne SUMMARY_MAX_CHARS (by decide)
    obtain ⟨s', eid, hok⟩ := insertEvent_ok s
      { sessionId := sid
        eventType :=
          if EVENT_TYPES.contains (pyStrip (a.eventType.getD "task_status")) then
            pyStrip (a.eventType.getD "task_status")
          else "task_status"
        summary := pyStrip (a.summary.getD "")
        filesTouched := some (a.filesTouched.getD [])
        source :=
          match optTruthy a.sourceDetail with
          | some d =>
            (if lowerStr (a.client.getD "unknown") = "cursor" ∨
                lowerStr (a.client.getD "unknown") = "claude" then
              "mcp:" ++ lowerStr (a.client.getD "unknown")
            else "mcp:unknown") ++ ":" ++ (⟨d.data.take 40⟩ : String)
          | none =>
            if lowerStr (a.client.getD "unknown") = "cursor" ∨
                lowerStr (a.client.getD "unknown") = "claude" then
              "mcp:" ++ lowerStr (a.client.getD "unknown")
            else "mcp:unknown"
        toolName := optTruthy a.toolName
        toolPurpose := none
        toolResult := optTruthy a.toolResult
        decisionSummary := if a.decision then some (pyStrip (a.summary.getD "")) else none
        beforeHash := none
        afterHash := none
        revertedEventId := none
        isEffective := 1 } now hq hnorm
    rw [hok]
    exact ⟨_, _, rfl⟩

/-- Witness for C9: on a store with a running session, a summary-only call
succeeds for session 1, and a summary-less call fails with `-32602`. -/
theorem C9_witness :
    (∃ s' eid, appendEventTool sessionStore summaryAppendArgs 5 = .ok (s', eid, 1)) ∧
    appendEventTool sessionStore emptyAppendArgs 5 =
      .error (.mcp (-32602) "summary is required") := by
  refine ⟨(C9_append_event_errors sessionStore summaryAppendArgs 5).2.2 1
      (by decide) (by decide) (by decide),
    (C9_append_event_errors sessionStore emptyAppendArgs 5).2.1 1 (by decide) (by decide)⟩

/-- Claim C10: the `recent_events` of the status snapshot (and of
`get_context`) are drawn from all events of the project with no session
filter, ordered by descending event id; concretely, with session 1 stopped
and session 2 running, `get_context` returns the stopped session's event
alongside the running session's. -/
theorem C10_recent_events_cross_session :
    (∀ (s : ProjectStore) (m : Int) (includeES : Bool),
      (getContextTool s m includeES).recentEvents =
        ((sortEventsDesc s.events).take (clampMaxEvents m)).map eventView ∧
      List.Sorted (fun a b : EventRow => b.id ≤ a.id)
        ((statusSnapshot s (clampMaxEvents m)).events) ∧
      (∀ e ∈ s.events, s.events.length ≤ clampMaxEvents m →
        e ∈ (statusSnapshot s (clampMaxEvents m)).events)) ∧
    ((statusSnapshot twoSessionStore 5).events.map EventRow.id = [2, 1] ∧
     (∃ e ∈ (statusSnapshot twoSessionStore 5).events, e.sessionId = 1) ∧
     (∃ t ∈ twoSessionStore.sessions, t.id = 1 ∧ t.state = "stopped") ∧
     (getActiveSession twoSessionStore).map SessionRow.id = some 2 ∧
     (getContextTool twoSessionStore 5 true).recentEvents.length = 2) := by
  constructor
  · intro s m includeES
    refine ⟨rfl, ?_, ?_⟩
    · exact List.Pairwise.sublist (List.take_sublist _ _)
        (List.sorted_insertionSort (fun a b : EventRow => b.id ≤ a.id) s.events)
    · intro e he hlen
      show e ∈ (sortEventsDesc s.events).take (clampMaxEvents m)
      have hlen2 : (sortEventsDesc s.events).length ≤ clampMaxEvents m := by
        rw [sortEventsDesc, List.length_insertionSort]
        exact hlen
      rw [List.take_of_length_le hlen2, sortEventsDesc, List.mem_insertionSort]
      exact he
  · exact ⟨by decide, by decide, by decide, by decide, by decide⟩

/-- Witness for C10: the session-1 event of the concrete two-session history
appears in the snapshot although session 1 is stopped. -/
theorem C10_witness :
    crossSessionEvent ∈ (statusSnapshot twoSessionStore (clampMaxEvents 5)).events ∧
    crossSessionEvent.sessionId = 1 := by
  refine ⟨(C10_recent_events_cross_session.1 twoSessionStore 5 true).2.2 crossSessionEvent
      (by decide) (by decide), by decide⟩

theorem latestBy_aux (l : List EventRow) :
    ∀ (acc : Option EventRow) (ex : EventRow),
      l.foldl (fun acc e =>
        match acc with
        | none => some e
        | some b => if b.createdAt ≤ e.createdAt then some e else some b) acc = some ex →
      acc = some ex ∨ ex ∈ l := by
  induction l with
  | nil => intro acc ex h; exact Or.inl h
  | cons x xs ih =>
    intro acc ex h
    rw [List.foldl_cons] at h
    rcases ih _ ex h with hacc | hmem
    · cases acc with
      | none =>
        right
        have hacc2 : some x = some ex := hacc
        rw [Option.some.injEq] at hacc2
        rw [← hacc2]
        exact List.mem_cons_self _ _
      | some b =>
        have hacc2 : (if b.createdAt ≤ x.createdAt then some x else some b) = some ex := hacc
        by_cases hc : b.createdAt ≤ x.createdAt
        · rw [if_pos hc] at hacc2
          right
          rw [Option.some.injEq] at hacc2
          rw [← hacc2]
          exact List.mem_cons_self _ _
        · rw [if_neg hc] at hacc2
          exact Or.inl hacc2
    · right
      exact List.mem_cons_of_mem _ hmem

theorem latestBy_mem (l : List EventRow) (ex : EventRow) (h : latestBy l = some ex) :
    ex ∈ l := by
  rcases latestBy_aux l none ex h with hacc | hmem
  · exact absurd hacc (by simp)
  · exact hmem

/-- Claim C6 (amended): for every stored event the `files_touched` list is
sorted (by code-point order, as Python's `sorted`) and deduplicated, and a
RELATIVE touched path that resolves inside the project root is stored as the
repo-relative POSIX path — but an ABSOLUTE input path is stored as POSIX
absolute even when it points inside the project root (see the
counterexample). -/
theorem C6_files_sorted_dedup :
    (∀ (root items : List String),
      List.Sorted pyStrLe (sanitizeFiles root items) ∧
      (sanitizeFiles root items).Nodup ∧
      (∀ it ∈ items, ∀ p, sanitizeOne root it = some p → p ∈ sanitizeFiles root items) ∧
      (∀ it ∈ items, pyStrip it ≠ "" → isAbsPath (pyStrip it) = false →
        ∀ rest, dropRootPref root (resolveUnder root (splitPath (pyStrip it))) = some rest →
          rest ≠ [] → joinPosix false rest ∈ sanitizeFiles root items) ∧
      (∀ it ∈ items, isAbsPath (pyStrip it) = true →
        joinPosix true (splitPath (pyStrip it)) ∈ sanitizeFiles root items)) ∧
    (∀ (s : ProjectStore) (a : InsertArgs) (now : Nat) (s' : ProjectStore),
      (∀ e ∈ s.events, e.id < s.nextEventId) →
      insertEventWithConn s a now = .ok (s', s.nextEventId) →
      ∃ r ∈ s'.events, r.id = s.nextEventId ∧
        r.filesTouched = sanitizeFiles s.projectRoot (a.filesTouched.getD [])) := by
  constructor
  · intro root items
    have hmemlem : ∀ it ∈ items, ∀ p, sanitizeOne root it = some p →
        p ∈ sanitizeFiles root items := by
      intro it hit p hp
      rw [sanitizeFiles, List.mem_insertionSort, List.mem_dedup]
      exact List.mem_filterMap.mpr ⟨it, hit, hp⟩
    refine ⟨List.sorted_insertionSort pyStrLe _,
      (List.perm_insertionSort pyStrLe _).nodup_iff.mpr (List.nodup_dedup _),
      hmemlem, ?_, ?_⟩
    · intro it hit hraw habs rest hdrop hrest
      apply hmemlem it hit
      cases rest with
      | nil => exact absurd rfl hrest
      | cons x xs =>
        simp only [sanitizeOne, if_neg hraw, habs, Bool.false_eq_true, if_false, hdrop]
    · intro it hit habs
      apply hmemlem it hit
      simp only [sanitizeOne, habs, if_true]
      split
      · rename_i hraw
        rw [hraw] at habs
        simp [isAbsPath] at habs
      · rfl
  · intro s a now s' hids hok
    simp only [insertEventWithConn] at hok
    split at hok
    · exact absurd hok (by simp)
    · split at hok
      · rename_i ex hhit
        rw [Except.ok.injEq, Prod.mk.injEq] at hok
        obtain ⟨-, hid⟩ := hok
        have hexmem : ex ∈ s.events := by
          split at hhit
          · rename_i e hlat
            split at hhit
            · rw [Option.some.injEq] at hhit
              rw [← hhit]
              exact List.mem_of_mem_filter (latestBy_mem _ e hlat)
            · exact absurd hhit (by simp)
          · exact absurd hhit (by simp)
        exact absurd hid (Nat.ne_of_lt (hids ex hexmem))
      · rw [Except.ok.injEq, Prod.mk.injEq] at hok
        obtain ⟨hs', -⟩ := hok
        refine ⟨newEventRow s a now, ?_, rfl, rfl⟩
        rw [← hs']
        simp [newEventRow, insertFingerprint]

/-- Witness for the amended C6 at concrete inputs. -/
theorem C6_witness :
    List.Sorted pyStrLe (sanitizeFiles ["proj"] ["b.txt", "a.txt"]) ∧
    (sanitizeFiles ["proj"] ["b.txt", "a.txt"]).Nodup ∧
    (∃ r ∈ (freshInsertStore sessionStore absPathArgs 5).events, r.id = 1 ∧
      r.filesTouched = sanitizeFiles sessionStore.projectRoot ["/proj/a.txt"]) := by
  obtain ⟨hsort, hnodup, -⟩ := C6_files_sorted_dedup.1 ["proj"] ["b.txt", "a.txt"]
  refine ⟨hsort, hnodup, ?_⟩
  have hok : insertEventWithConn sessionStore absPathArgs 5 =
      .ok (freshInsertStore sessionStore absPathArgs 5, 1) := by decide
  exact C6_files_sorted_dedup.2 sessionStore absPathArgs 5 _ (by decide) hok


theorem filter_running_map_le (l : List SessionRow) (f : SessionRow → SessionRow)
    (hf : ∀ t, f t = t ∨ (f t).state ≠ "running") :
    ((l.map f).filter fun t => t.state == "running").length ≤
      (l.filter fun t => t.state == "running").length := by
  induction l with
  | nil => simp
  | cons x xs ih =>
    rw [List.map_cons, List.filter_cons, List.filter_cons]
    rcases hf x with hfx | hfx
    · rw [hfx]
      split
      · simpa using Nat.succ_le_succ ih
      · exact ih
    · have hfalse : ((f x).state == "running") = false := by
        simpa using hfx
      rw [hfalse]
      simp only [Bool.false_eq_true, if_false]
      split
      · exact Nat.le_succ_of_le ih
      · exact ih

theorem updateSourceStatus_sessions (s : ProjectStore) (sid : Nat) (src status : String) :
    (updateSourceStatus s sid src status).sessions = s.sessions := by
  rw [updateSourceStatus]
  split
  · rfl
  · rfl

theorem runningCount_createSession (s : ProjectStore) (agent : String)
    (ref : Option String) (now : Nat) :
    runningCount (createSession s agent ref now).1 = runningCount s + 1 := by
  simp [runningCount, createSession, List.filter_append, List.filter]

theorem runningCount_setSessionState_le (s : ProjectStore) (sid : Nat) (st : String)
    (now : Nat) (hne : st ≠ "running") :
    runningCount (setSessionState s sid st now) ≤ runningCount s := by
  rw [runningCount, runningCount, setSessionState]
  by_cases hstop : st = "stopped"
  · rw [if_pos hstop]
    apply filter_running_map_le
    intro t
    by_cases ht : t.id = sid
    · right
      rw [if_pos ht]
      simpa using hne
    · left
      rw [if_neg ht]
  · rw [if_neg hstop]
    have hmain : ((s.sessions.map fun t =>
        if t.id = sid then { t with state := st, lastUpdatedAt := some now } else t).filter
          fun t => t.state == "running").length ≤
        (s.sessions.filter fun t => t.state == "running").length := by
      apply filter_running_map_le
      intro t
      by_cases ht : t.id = sid
      · right
        rw [if_pos ht]
        simpa using hne
      · left
        rw [if_neg ht]
    split
    · exact hmain
    · exact hmain

theorem getActiveSession_none_aux (l : List SessionRow) :
    ∀ (t : SessionRow),
      l.foldl (fun acc t =>
        match acc with
        | none => some t
        | some b => if b.startedAt ≤ t.startedAt then some t else some b) (some t) ≠ none := by
  induction l with
  | nil => intro t h; exact absurd h (by simp)
  | cons x xs ih =>
    intro t h
    rw [List.foldl_cons] at h
    have h2 : xs.foldl (fun acc t =>
        match acc with
        | none => some t
        | some b => if b.startedAt ≤ t.startedAt then some t else some b)
        (if t.startedAt ≤ x.startedAt then some x else some t) = none := h
    by_cases hc : t.startedAt ≤ x.startedAt
    · rw [if_pos hc] at h2
      exact ih x h2
    · rw [if_neg hc] at h2
      exact ih t h2

theorem getActiveSession_none_count (s : ProjectStore)
    (h : getActiveSession s = none) : runningCount s = 0 := by
  rw [runningCount]
  cases hl : s.sessions.filter fun t => t.state == "running" with
  | nil => rfl
  | cons x xs =>
    rw [getActiveSession, hl, List.foldl_cons] at h
    exact absurd h (getActiveSession_none_aux xs x)

/-- Claim C7 (amended): every state reachable from a state with at most one
running session through successful `start_chat_session` / `stop_chat_session`
tool calls and `set_session_state` with target `"stopping"` or `"stopped"`
still has at most one running session (the direct `create_session` store
operation, which checks nothing, is excluded — see the counterexample). -/
theorem C7_at_most_one_running (s s' : ProjectStore)
    (h1 : runningCount s ≤ 1) (hstep : SessionStep s s') : runningCount s' ≤ 1 := by
  cases hstep with
  | startChat clientArg externalSessionRef now sid h =>
    simp only [startChatSessionTool] at h
    split at h
    · exact absurd h (by simp)
    · split at h
      · rename_i act hact
        split at h
        · exact absurd h (by simp)
        · rw [Except.ok.injEq, Prod.mk.injEq] at h
          obtain ⟨hs', -⟩ := h
          rw [runningCount, ← hs', updateSourceStatus_sessions]
          exact h1
      · rename_i hact
        rw [Except.ok.injEq, Prod.mk.injEq] at h
        obtain ⟨hs', -⟩ := h
        have hzero : runningCount s = 0 := getActiveSession_none_count s hact
        rw [runningCount, ← hs', updateSourceStatus_sessions]
        have := runningCount_createSession s (lowerStr (pyStrip (clientArg.getD "")))
          (optTruthy externalSessionRef) now
        rw [runningCount] at this
        rw [this, hzero]
  | stopChat sessionId now sid h =>
    simp only [stopChatSessionTool] at h
    split at h
    · exact absurd h (by simp)
    · rename_i sid0
      rw [Except.ok.injEq, Prod.mk.injEq] at h
      obtain ⟨hs', -⟩ := h
      rw [← hs']
      calc runningCount (setSessionState s sid0 "stopped" now) ≤ runningCount s :=
          runningCount_setSessionState_le s sid0 "stopped" now (by decide)
        _ ≤ 1 := h1
  | setState sessionId st now h =>
    have hne : st ≠ "running" := by
      rcases h with h | h <;> rw [h] <;> decide
    calc runningCount (setSessionState s sessionId st now) ≤ runningCount s :=
        runningCount_setSessionState_le s sessionId st now hne
      _ ≤ 1 := h1

/-- Witness for the amended C7: starting a chat session on an empty project
leaves exactly one running session. -/
theorem C7_witness : runningCount startChatWitnessStore ≤ 1 := by
  refine C7_at_most_one_running baseStore startChatWitnessStore (by decide) ?_
  exact SessionStep.startChat (some "cursor") none 0 1 (by decide)

theorem c5_call1 (p B H1 : String) (t1 : Nat)
    (hH1 : H1 ≠ "") (hne : H1 ≠ B) :
    recordFileTransition (revertStart p B) 1 "filesystem" p H1 t1 =
      .ok (c5State1 p B H1 t1, some 1) := by
  have hq1 : (revertStart p B).usage < (85 * (revertStart p B).cap) / 100 := by
    show (0 : Nat) < 85 * 100 / 100
    decide
  have hQ : enforceQuota (revertStart p B) t1 = Except.ok (c5Quota p B t1) :=
    enforceQuota_skip _ t1 hq1
  have hBH : ¬ (B = H1) := fun h => hne h.symm
  have hsum1 : normalize_summary ("File changed: " ++ posixOf p ++ ".")
      SUMMARY_MAX_CHARS ≠ "" := by
    apply normalize_ne_empty _ _ (by decide) 'F' (by decide)
    show 'F' ∈ ("File changed: " ++ posixOf p ++ ".").data
    rw [String.data_append, String.data_append]
    apply List.mem_append_left
    apply List.mem_append_left
    decide
  have hins1 : insertEventWithConn (c5Quota p B t1) (c5Args1 p B H1) t1 =
      Except.ok (freshInsertStore (c5Quota p B t1) (c5Args1 p B H1) t1, 1) := by
    have hfr : ∀ e ∈ (c5Quota p B t1).events,
        ¬(e.sessionId = (c5Args1 p B H1).sessionId ∧
          e.dedupeHash = insertFingerprint (c5Quota p B t1) (c5Args1 p B H1)) := by
      intro e he
      have : e ∈ ([] : List EventRow) := he
      simp at this
    exact insertEventWithConn_fresh _ _ _ hsum1 hfr
  have hfind : ((c5Quota p B t1).fileState.find? fun r => r.path == posixOf p) =
      some { path := posixOf p, currentHash := B, baselineHash := B,
             lastEventId := none, isClean := 1, updatedAt := 0 } := by
    show (([{ path := posixOf p, currentHash := B, baselineHash := B,
              lastEventId := none, isClean := 1, updatedAt := 0 }] :
        List FileStateRow).find? fun r => r.path == posixOf p) = _
    simp [List.find?]
  have hcont : ((c5Quota p B t1).fileHashHistory.contains (posixOf p, H1)) = false := by
    show (([(posixOf p, B)] : List (String × String)).contains (posixOf p, H1)) = false
    simp [hne]
  have hcontL : (([(posixOf p, B)] : List (String × String)).contains (posixOf p, H1)) = false := by
    simp [hne]
  have hfs : (freshInsertStore (c5Quota p B t1) (c5Args1 p B H1) t1).fileState =
      [{ path := posixOf p, currentHash := B, baselineHash := B,
         lastEventId := none, isClean := 1, updatedAt := 0 }] := rfl
  have hfh : (freshInsertStore (c5Quota p B t1) (c5Args1 p B H1) t1).fileHashHistory =
      [(posixOf p, B)] := rfl
  have hargs : ({ sessionId := 1
                  eventType := "code_change"
                  summary := "File changed: " ++ posixOf p ++ "."
                  filesTouched := some [posixOf p]
                  source := "filesystem"
                  toolName := none
                  toolPurpose := none
                  toolResult := none
                  decisionSummary := none
                  beforeHash := some B
                  afterHash := some H1
                  revertedEventId := none
                  isEffective := 1 } : InsertArgs) = c5Args1 p B H1 := rfl
  simp only [recordFileTransition, hQ, if_neg hH1, hfind, if_neg hBH, hcont,
    Bool.false_eq_true, if_false, if_neg hne, hargs, hins1, hfs, hfh, hcontL,
    List.any_cons, List.any_nil, beq_self_eq_true, Bool.or_false, if_true,
    List.map_cons, List.map_nil, List.cons_append, List.nil_append, c5State1]

/-- The tail of `recordFileTransition` after the quota pass, as a function of
the store the quota step returned (project_db.py:709-766). -/

theorem recordFileTransition_quota (s0 q : ProjectStore) (sessionId : Nat)
    (source path afterHash : String) (now : Nat)
    (hq : enforceQuota s0 now = .ok q) :
    recordFileTransition s0 sessionId source path afterHash now =
      recordFileTransitionTail q sessionId source path afterHash now := by
  simp only [recordFileTransition, recordFileTransitionTail, hq]


theorem dedupeBasis_code_change_ne_revert (ss1 ss2 : String) (f1 f2 : List String)
    (b1 b2 a1 a2 : Option String) (r1 r2 : Option Nat) (e1 e2 : Nat) :
    dedupeBasis "code_change" ss1 f1 b1 a1 r1 e1 ≠ dedupeBasis "revert" ss2 f2 b2 a2 r2 e2 := by
  intro h
  have hd := congrArg String.data h
  simp only [dedupeBasis, String.data_append] at hd
  simp only [List.cons_append] at hd
  have hc := (List.cons.injEq ..).mp hd
  exact absurd hc.1 (by decide)


theorem c5_call2 (p B H1 : String) (t1 t2 : Nat)
    (hB : B ≠ "") (hne : H1 ≠ B) :
    recordFileTransition (c5State1 p B H1 t1) 1 "filesystem" p B t2 =
      .ok (c5State2 p B H1 t1 t2, some 2) := by
  have hq2 : (c5State1 p B H1 t1).usage < (85 * (c5State1 p B H1 t1).cap) / 100 := by
    show (1 : Nat) < 85 * 100 / 100
    decide
  have hQ2 : enforceQuota (c5State1 p B H1 t1) t2 = Except.ok (c5Quota2 p B H1 t1 t2) :=
    enforceQuota_skip _ t2 hq2
  have hfind2 : ((c5Quota2 p B H1 t1 t2).fileState.find? fun r => r.path == posixOf p) =
      some { path := posixOf p, currentHash := H1, baselineHash := B,
             lastEventId := some 1, isClean := 0, updatedAt := t1 } := by
    show (([{ path := posixOf p, currentHash := H1, baselineHash := B,
              lastEventId := some 1, isClean := 0, updatedAt := t1 }] :
        List FileStateRow).find? fun r => r.path == posixOf p) = _
    simp [List.find?]
  have hcont2 : ((c5Quota2 p B H1 t1 t2).fileHashHistory.contains (posixOf p, B)) = true := by
    show (([(posixOf p, B), (posixOf p, H1)] : List (String × String)).contains
      (posixOf p, B)) = true
    simp
  have hcontT : (([(posixOf p, B), (posixOf p, H1)] : List (String × String)).contains
      (posixOf p, B)) = true := by
    simp
  have hsum2 : normalize_summary
      ("Last changes were reverted for " ++ posixOf p ++ "; file returned to baseline.")
      SUMMARY_MAX_CHARS ≠ "" := by
    apply normalize_ne_empty _ _ (by decide) 'L' (by decide)
    show 'L' ∈ ("Last changes were reverted for " ++ posixOf p ++
      "; file returned to baseline.").data
    rw [String.data_append, String.data_append]
    apply List.mem_append_left
    apply List.mem_append_left
    decide
  have hins2 : insertEventWithConn (c5Quota2 p B H1 t1 t2) (c5Args2 p B H1) t2 =
      Except.ok (freshInsertStore (c5Quota2 p B H1 t1 t2) (c5Args2 p B H1) t2, 2) := by
    have hfr : ∀ e ∈ (c5Quota2 p B H1 t1 t2).events,
        ¬(e.sessionId = (c5Args2 p B H1).sessionId ∧
          e.dedupeHash = insertFingerprint (c5Quota2 p B H1 t1 t2) (c5Args2 p B H1)) := by
      intro e he
      have he2 : e ∈ [newEventRow (c5Quota p B t1) (c5Args1 p B H1) t1] := he
      simp only [List.mem_singleton] at he2
      subst he2
      intro hand
      exact dedupeBasis_code_change_ne_revert _ _ _ _ _ _ _ _ _ _ _ _ hand.2
    exact insertEventWithConn_fresh _ _ _ hsum2 hfr
  have hfs2 : (freshInsertStore (c5Quota2 p B H1 t1 t2) (c5Args2 p B H1) t2).fileState =
      [{ path := posixOf p, currentHash := H1, baselineHash := B,
         lastEventId := some 1, isClean := 0, updatedAt := t1 }] := rfl
  have hfh2 : (freshInsertStore (c5Quota2 p B H1 t1 t2) (c5Args2 p B H1) t2).fileHashHistory =
      [(posixOf p, B), (posixOf p, H1)] := rfl
  have hevents2 : (freshInsertStore (c5Quota2 p B H1 t1 t2) (c5Args2 p B H1) t2).events =
      [newEventRow (c5Quota p B t1) (c5Args1 p B H1) t1,
       newEventRow (c5Quota2 p B H1 t1 t2) (c5Args2 p B H1) t2] := rfl
  have hid1 : (newEventRow (c5Quota p B t1) (c5Args1 p B H1) t1).id = 1 := rfl
  have hid2 : (newEventRow (c5Quota2 p B H1 t1 t2) (c5Args2 p B H1) t2).id = 2 := rfl
  have hargs2 : ({ sessionId := 1
                   eventType := "revert"
                   summary := "Last changes were reverted for " ++ posixOf p ++
                     "; file returned to baseline."
                   filesTouched := some [posixOf p]
                   source := "filesystem"
                   toolName := none
                   toolPurpose := none
                   toolResult := none
                   decisionSummary := none
                   beforeHash := some H1
                   afterHash := some B
                   revertedEventId := some 1
                   isEffective := 1 } : InsertArgs) = c5Args2 p B H1 := rfl
  have h21 : ¬((2 : Nat) = 1) := by decide
  rw [recordFileTransition_quota _ _ _ _ _ _ _ hQ2]
  simp only [recordFileTransitionTail, if_neg hB, hfind2, if_neg hne, hcont2,
    if_true, if_pos rfl, if_neg h21, hargs2, hins2, hfs2, hfh2, hevents2, hcontT,
    hid1, hid2, List.any_cons, List.any_nil, beq_self_eq_true, Bool.or_false,
    List.map_cons, List.map_nil, List.cons_append, List.nil_append, c5State2]


/-- Claim C5: revert closure.  From a store whose FileState for `p` sits at
baseline hash `B` (with `(p, B)` in the hash history), recording a transition
to a fresh hash `H1` and then back to `B` ends with `FileState.is_clean = 1`
and the file back at `B`; the final event has type `"revert"`, points at the
`H1` event through `reverted_event_id`, and its summary says the file
returned to baseline; the `H1` event is marked ineffective and points back
through `reverted_by_event_id`. -/
theorem C5_revert_closure (p B H1 : String) (t1 t2 : Nat)
    (hB : B ≠ "") (hH1 : H1 ≠ "") (hne : H1 ≠ B) :
    recordFileTransition (revertStart p B) 1 "filesystem" p H1 t1 =
      .ok (c5State1 p B H1 t1, some 1) ∧
    recordFileTransition (c5State1 p B H1 t1) 1 "filesystem" p B t2 =
      .ok (c5State2 p B H1 t1 t2, some 2) ∧
    (c5State2 p B H1 t1 t2).fileState =
      [{ path := posixOf p, currentHash := B, baselineHash := B,
         lastEventId := some 2, isClean := 1, updatedAt := t2 }] ∧
    ∃ e1 e2, (c5State2 p B H1 t1 t2).events = [e1, e2] ∧
      e2.id = 2 ∧ e2.eventType = "revert" ∧ e2.revertedEventId = some 1 ∧
      e2.summary = normalize_summary
        ("Last changes were reverted for " ++ posixOf p ++
          "; file returned to baseline.") SUMMARY_MAX_CHARS ∧
      e1.id = 1 ∧ e1.isEffective = 0 ∧ e1.revertedByEventId = some 2 :=
  ⟨c5_call1 p B H1 t1 hH1 hne, c5_call2 p B H1 t1 t2 hB hne, rfl,
   _, _, rfl, rfl, rfl, rfl, rfl, rfl, rfl, rfl⟩

/-- Witness: the revert-closure law at the concrete input `p = "src/a.txt"`,
`B = "b0"`, `H1 = "h1"`, `t1 = 10`, `t2 = 20`. -/
theorem C5_witness :
    recordFileTransition (revertStart "src/a.txt" "b0") 1 "filesystem" "src/a.txt" "h1" 10 =
      .ok (c5State1 "src/a.txt" "b0" "h1" 10, some 1) ∧
    recordFileTransition (c5State1 "src/a.txt" "b0" "h1" 10) 1 "filesystem"
        "src/a.txt" "b0" 20 =
      .ok (c5State2 "src/a.txt" "b0" "h1" 10 20, some 2) ∧
    (c5State2 "src/a.txt" "b0" "h1" 10 20).fileState =
      [{ path := posixOf "src/a.txt", currentHash := "b0", baselineHash := "b0",
         lastEventId := some 2, isClean := 1, updatedAt := 20 }] ∧
    ∃ e1 e2, (c5State2 "src/a.txt" "b0" "h1" 10 20).events = [e1, e2] ∧
      e2.id = 2 ∧ e2.eventType = "revert" ∧ e2.revertedEventId = some 1 ∧
      e2.summary = normalize_summary
        ("Last changes were reverted for " ++ posixOf "src/a.txt" ++
          "; file returned to baseline.") SUMMARY_MAX_CHARS ∧
      e1.id = 1 ∧ e1.isEffective = 0 ∧ e1.revertedByEventId = some 2 :=
  C5_revert_closure "src/a.txt" "b0" "h1" 10 20 (by decide) (by decide) (by decide)

theorem mapPreserve_inv (l : List EventRow) (u : EventRow → EventRow) (N : Nat)
    (hid : ∀ e, (u e).id = e.id)
    (hrev : ∀ e, (u e).revertedEventId = e.revertedEventId)
    (heff : ∀ e, (u e).isEffective = e.isEffective)
    (h1 : ∀ e ∈ l, e.id < N)
    (h2 : ∀ e ∈ l, ∀ q, e.revertedEventId = some q → q < N)
    (h4 : ∀ t ∈ l, ∀ q, t.revertedEventId = some q →
      ∀ e ∈ l, e.id = q → e.isEffective = 0) :
    (∀ e ∈ l.map u, e.id < N) ∧
    (∀ e ∈ l.map u, ∀ q, e.revertedEventId = some q → q < N) ∧
    (∀ t ∈ l.map u, ∀ q, t.revertedEventId = some q →
      ∀ e ∈ l.map u, e.id = q → e.isEffective = 0) := by
  refine ⟨?_, ?_, ?_⟩
  · intro e he
    obtain ⟨e0, he0, rfl⟩ := List.mem_map.mp he
    rw [hid]
    exact h1 e0 he0
  · intro e he q hq
    obtain ⟨e0, he0, rfl⟩ := List.mem_map.mp he
    rw [hrev] at hq
    exact h2 e0 he0 q hq
  · intro t ht q hq e he hidq
    obtain ⟨t0, ht0, rfl⟩ := List.mem_map.mp ht
    obtain ⟨e0, he0, rfl⟩ := List.mem_map.mp he
    rw [hrev] at hq
    rw [hid] at hidq
    rw [heff]
    exact h4 t0 ht0 q hq e0 he0 hidq

theorem updMap_inv (l : List EventRow) (u : EventRow → EventRow) (pid N : Nat)
    (hid : ∀ e, (u e).id = e.id)
    (hrev : ∀ e, (u e).revertedEventId = e.revertedEventId)
    (heff0 : ∀ e, (u e).isEffective = e.isEffective ∨ (u e).isEffective = 0)
    (hpid0 : ∀ e, e.id = pid → (u e).isEffective = 0)
    (h1 : ∀ e ∈ l, e.id < N)
    (h2 : ∀ e ∈ l, ∀ q, e.revertedEventId = some q → q < N)
    (h4w : ∀ t ∈ l, ∀ q, t.revertedEventId = some q →
      ∀ e ∈ l, e.id = q → e.isEffective = 0 ∨ q = pid) :
    (∀ e ∈ l.map u, e.id < N) ∧
    (∀ e ∈ l.map u, ∀ q, e.revertedEventId = some q → q < N) ∧
    (∀ t ∈ l.map u, ∀ q, t.revertedEventId = some q →
      ∀ e ∈ l.map u, e.id = q → e.isEffective = 0) := by
  refine ⟨?_, ?_, ?_⟩
  · intro e he
    obtain ⟨e0, he0, rfl⟩ := List.mem_map.mp he
    rw [hid]
    exact h1 e0 he0
  · intro e he q hq
    obtain ⟨e0, he0, rfl⟩ := List.mem_map.mp he
    rw [hrev] at hq
    exact h2 e0 he0 q hq
  · intro t ht q hq e he hidq
    obtain ⟨t0, ht0, rfl⟩ := List.mem_map.mp ht
    obtain ⟨e0, he0, rfl⟩ := List.mem_map.mp he
    rw [hrev] at hq
    rw [hid] at hidq
    rcases h4w t0 ht0 q hq e0 he0 hidq with h0 | hq0
    · rcases heff0 e0 with h | h
      · rw [h, h0]
      · exact h
    · exact hpid0 e0 (hidq.trans hq0)

theorem fsUpdate_sources (L : List FileStateRow) (fp sA bl : String) (eid iC now : Nat) :
    ∀ f ∈ (if L.any (fun r => r.path == fp) = true then
        L.map fun r => if (r.path == fp) = true then
          { r with currentHash := sA, lastEventId := some eid,
                   isClean := iC, updatedAt := now }
        else r
      else L ++ [{ path := fp, currentHash := sA, baselineHash := bl,
                   lastEventId := some eid, isClean := iC, updatedAt := now }]),
      ∀ lid, f.lastEventId = some lid →
        lid = eid ∨ ∃ f0 ∈ L, f0.lastEventId = some lid := by
  intro f hf lid hl
  split at hf
  · obtain ⟨f0, hf0, rfl⟩ := List.mem_map.mp hf
    by_cases hp : (f0.path == fp) = true
    · simp only [if_pos hp] at hl
      exact Or.inl (Option.some.inj hl).symm
    · simp only [if_neg hp] at hl
      exact Or.inr ⟨f0, hf0, hl⟩
  · rcases List.mem_append.mp hf with h | h
    · exact Or.inr ⟨f, h, hl⟩
    · rw [List.mem_singleton] at h
      subst h
      exact Or.inl (Option.some.inj hl).symm

theorem insertEventWithConn_shape (s : ProjectStore) (a : InsertArgs) (now : Nat)
    (s2 : ProjectStore) (eid : Nat)
    (h : insertEventWithConn s a now = .ok (s2, eid)) :
    (∃ ex ∈ s.events, eid = ex.id ∧ s2 = dedupeHitStore s a.sessionId ex.id now) ∨
    (s2 = freshInsertStore s a now ∧ eid = s.nextEventId) := by
  simp only [insertEventWithConn] at h
  split at h
  · exact absurd h (by simp)
  · split at h
    · rename_i ex hhit
      rw [Except.ok.injEq, Prod.mk.injEq] at h
      obtain ⟨hs, he⟩ := h
      refine Or.inl ⟨ex, ?_, he.symm, hs.symm.trans rfl⟩
      split at hhit
      · rename_i ex0 hlat
        split at hhit
        · rw [Option.some.injEq] at hhit
          subst hhit
          exact List.mem_of_mem_filter (latestBy_mem _ _ hlat)
        · exact absurd hhit (by simp)
      · exact absurd hhit (by simp)
    · rw [Except.ok.injEq, Prod.mk.injEq] at h
      obtain ⟨hs, he⟩ := h
      exact Or.inr ⟨hs.symm.trans rfl, he.symm⟩

theorem PointerInv_enforceQuota (s : ProjectStore) (now : Nat) (s1 : ProjectStore)
    (h : enforceQuota s now = .ok s1) (hinv : PointerInv s) : PointerInv s1 := by
  obtain ⟨h1, h2, h3, h4⟩ := hinv
  obtain ⟨-, -, -, -, hne, hfs, -, -, -, hev⟩ := enforceQuota_ok_fields s now s1 h
  refine ⟨?_, ?_, ?_, ?_⟩
  · intro e he
    rw [hne]
    exact h1 e (hev e he)
  · intro e he q hq
    rw [hne]
    exact h2 e (hev e he) q hq
  · intro f hf lid hl
    rw [hne]
    exact h3 f (hfs ▸ hf) lid hl
  · intro t ht q hq e he hid
    exact h4 t (hev t ht) q hq e (hev e he) hid

theorem PointerInv_finish_none (s : ProjectStore) (a : InsertArgs) (now : Nat)
    (s1 : ProjectStore) (eid : Nat) (F : List FileStateRow) (H : List (String × String))
    (hinv : PointerInv s)
    (hins : insertEventWithConn s a now = .ok (s1, eid))
    (harev : ∀ q, a.revertedEventId ≠ some q)
    (hF : ∀ f ∈ F, ∀ lid, f.lastEventId = some lid →
      lid = eid ∨ ∃ f0 ∈ s1.fileState, f0.lastEventId = some lid) :
    PointerInv { s1 with fileState := F, fileHashHistory := H } := by
  obtain ⟨h1, h2, h3, h4⟩ := hinv
  rcases insertEventWithConn_shape s a now s1 eid hins with ⟨ex, hexm, hde, hs1⟩ | ⟨hs1, hde⟩
  · subst hde
    subst hs1
    have hm := mapPreserve_inv s.events
      (fun e => if e.id = ex.id then { e with updatedAt := now } else e) s.nextEventId
      (fun e => by by_cases h : e.id = ex.id
                   · simp only [if_pos h]
                   · simp only [if_neg h])
      (fun e => by by_cases h : e.id = ex.id
                   · simp only [if_pos h]
                   · simp only [if_neg h])
      (fun e => by by_cases h : e.id = ex.id
                   · simp only [if_pos h]
                   · simp only [if_neg h])
      h1 h2 h4
    refine ⟨hm.1, hm.2.1, ?_, hm.2.2⟩
    intro f hf lid hl
    rcases hF f hf lid hl with h | ⟨f0, hf0, hl0⟩
    · rw [h]
      exact h1 ex hexm
    · exact h3 f0 hf0 lid hl0
  · subst hde
    subst hs1
    refine ⟨?_, ?_, ?_, ?_⟩
    · intro e he
      rcases List.mem_append.mp he with h | h
      · exact Nat.lt_succ_of_lt (h1 e h)
      · rw [List.mem_singleton] at h
        subst h
        exact Nat.lt_succ_self _
    · intro e he q hq
      rcases List.mem_append.mp he with h | h
      · exact Nat.lt_succ_of_lt (h2 e h q hq)
      · rw [List.mem_singleton] at h
        subst h
        exact absurd hq (harev q)
    · intro f hf lid hl
      rcases hF f hf lid hl with h | ⟨f0, hf0, hl0⟩
      · rw [h]
        exact Nat.lt_succ_self _
      · exact Nat.lt_succ_of_lt (h3 f0 hf0 lid hl0)
    · intro t ht q hq e he hid
      rcases List.mem_append.mp ht with hto | hto
      · rcases List.mem_append.mp he with heo | heo
        · exact h4 t hto q hq e heo hid
        · rw [List.mem_singleton] at heo
          subst heo
          have hqq : s.nextEventId = q := hid
          subst hqq
          exact absurd (h2 t hto _ hq) (Nat.lt_irrefl _)
      · rw [List.mem_singleton] at hto
        subst hto
        exact absurd hq (harev q)

theorem PointerInv_finish_some (s : ProjectStore) (a : InsertArgs) (now : Nat)
    (s1 : ProjectStore) (pid eid : Nat) (bRev : Bool)
    (F : List FileStateRow) (H : List (String × String))
    (hinv : PointerInv s)
    (hins : insertEventWithConn s a now = .ok (s1, eid))
    (hpid : pid < s.nextEventId)
    (harev : ∀ q, a.revertedEventId = some q → q = pid)
    (hF : ∀ f ∈ F, ∀ lid, f.lastEventId = some lid →
      lid = eid ∨ ∃ f0 ∈ s1.fileState, f0.lastEventId = some lid) :
    PointerInv { s1 with
      events := s1.events.map fun e =>
        if e.id = pid then
          { e with isEffective := 0,
                   revertedByEventId := if bRev then some eid else e.revertedByEventId }
        else e,
      fileState := F, fileHashHistory := H } := by
  obtain ⟨h1, h2, h3, h4⟩ := hinv
  rcases insertEventWithConn_shape s a now s1 eid hins with ⟨ex, hexm, hde, hs1⟩ | ⟨hs1, hde⟩
  · subst hde
    subst hs1
    have hm := mapPreserve_inv s.events
      (fun e => if e.id = ex.id then { e with updatedAt := now } else e) s.nextEventId
      (fun e => by by_cases h : e.id = ex.id
                   · simp only [if_pos h]
                   · simp only [if_neg h])
      (fun e => by by_cases h : e.id = ex.id
                   · simp only [if_pos h]
                   · simp only [if_neg h])
      (fun e => by by_cases h : e.id = ex.id
                   · simp only [if_pos h]
                   · simp only [if_neg h])
      h1 h2 h4
    have hu := updMap_inv
      (s.events.map fun e => if e.id = ex.id then { e with updatedAt := now } else e)
      (fun e => if e.id = pid then
          { e with isEffective := 0,
                   revertedByEventId := if bRev then some ex.id else e.revertedByEventId }
        else e)
      pid s.nextEventId
      (fun e => by by_cases h : e.id = pid
                   · simp only [if_pos h]
                   · simp only [if_neg h])
      (fun e => by by_cases h : e.id = pid
                   · simp only [if_pos h]
                   · simp only [if_neg h])
      (fun e => by by_cases h : e.id = pid
                   · exact Or.inr (by simp only [if_pos h])
                   · exact Or.inl (by simp only [if_neg h]))
      (fun e he => by simp only [if_pos he])
      hm.1 hm.2.1
      (fun t ht q hq e he hidq => Or.inl (hm.2.2 t ht q hq e he hidq))
    refine ⟨hu.1, hu.2.1, ?_, hu.2.2⟩
    intro f hf lid hl
    rcases hF f hf lid hl with h | ⟨f0, hf0, hl0⟩
    · rw [h]
      exact h1 ex hexm
    · exact h3 f0 hf0 lid hl0
  · subst hde
    subst hs1
    have hu := updMap_inv (s.events ++ [newEventRow s a now])
      (fun e => if e.id = pid then
          { e with isEffective := 0,
                   revertedByEventId := if bRev then some s.nextEventId
                                        else e.revertedByEventId }
        else e)
      pid (s.nextEventId + 1)
      (fun e => by by_cases h : e.id = pid
                   · simp only [if_pos h]
                   · simp only [if_neg h])
      (fun e => by by_cases h : e.id = pid
                   · simp only [if_pos h]
                   · simp only [if_neg h])
      (fun e => by by_cases h : e.id = pid
                   · exact Or.inr (by simp only [if_pos h])
                   · exact Or.inl (by simp only [if_neg h]))
      (fun e he => by simp only [if_pos he])
      (by
        intro e he
        rcases List.mem_append.mp he with h | h
        · exact Nat.lt_succ_of_lt (h1 e h)
        · rw [List.mem_singleton] at h
          subst h
          exact Nat.lt_succ_self _)
      (by
        intro e he q hq
        rcases List.mem_append.mp he with h | h
        · exact Nat.lt_succ_of_lt (h2 e h q hq)
        · rw [List.mem_singleton] at h
          subst h
          rw [harev q hq]
          exact Nat.lt_succ_of_lt hpid)
      (by
        intro t ht q hq e he hidq
        rcases List.mem_append.mp ht with hto | hto
        · rcases List.mem_append.mp he with heo | heo
          · exact Or.inl (h4 t hto q hq e heo hidq)
          · rw [List.mem_singleton] at heo
            subst heo
            have hqq : s.nextEventId = q := hidq
            subst hqq
            exact absurd (h2 t hto _ hq) (Nat.lt_irrefl _)
        · rw [List.mem_singleton] at hto
          subst hto
          exact Or.inr (harev q hq))
    refine ⟨hu.1, hu.2.1, ?_, hu.2.2⟩
    intro f hf lid hl
    rcases hF f hf lid hl with h | ⟨f0, hf0, hl0⟩
    · rw [h]
      exact Nat.lt_succ_self _
    · exact Nat.lt_succ_of_lt (h3 f0 hf0 lid hl0)

theorem recordFileTransition_quota_err (s0 : ProjectStore) (sessionId : Nat)
    (source path afterHash : String) (now : Nat) (e : StoreErr)
    (hq : enforceQuota s0 now = .error e) :
    recordFileTransition s0 sessionId source path afterHash now = .error e := by
  simp only [recordFileTransition, hq]

theorem PointerInv_tail (s : ProjectStore) (sessionId : Nat)
    (source path afterHash : String) (now : Nat) (s' : ProjectStore) (r : Option Nat)
    (hinv : PointerInv s)
    (hrun : recordFileTransitionTail s sessionId source path afterHash now = .ok (s', r)) :
    PointerInv s' := by
  simp only [recordFileTransitionTail] at hrun
  cases hfind : (s.fileState.find? fun rr => rr.path == posixOf path) with
  | none =>
    simp only [hfind] at hrun
    revert hrun
    generalize (if afterHash = "" then DELETED_FILE_HASH else afterHash) = sA
    generalize s.fileHashHistory.contains (posixOf path, sA) = bR
    generalize ((if sA = DELETED_FILE_HASH then 1 else 0 : Nat)) = iC
    intro hrun
    by_cases hbs : DELETED_FILE_HASH = sA
    · rw [if_pos hbs, Except.ok.injEq, Prod.mk.injEq] at hrun
      exact hrun.1 ▸ hinv
    · rw [if_neg hbs] at hrun
      split at hrun
      · exact absurd hrun (by simp)
      · rename_i s1 eid heqins
        rw [Except.ok.injEq, Prod.mk.injEq] at hrun
        obtain ⟨hX, -⟩ := hrun
        subst hX
        refine PointerInv_finish_none s _ now s1 eid _ _ hinv heqins ?_ ?_
        · intro q hq
          have hq2 : (if bR = true then (none : Option Nat) else none) = some q := hq
          split at hq2 <;> exact absurd hq2 (by simp)
        · exact fsUpdate_sources s1.fileState (posixOf path) sA DELETED_FILE_HASH eid iC now
  | some st =>
    have hstm : st ∈ s.fileState := List.mem_of_find?_eq_some hfind
    simp only [hfind] at hrun
    cases heqp : st.lastEventId with
    | none =>
      simp only [heqp] at hrun
      revert hrun
      generalize (if afterHash = "" then DELETED_FILE_HASH else afterHash) = sA
      generalize s.fileHashHistory.contains (posixOf path, sA) = bR
      generalize ((if sA = st.baselineHash then 1 else 0 : Nat)) = iC
      intro hrun
      by_cases hbs : st.currentHash = sA
      · rw [if_pos hbs, Except.ok.injEq, Prod.mk.injEq] at hrun
        exact hrun.1 ▸ hinv
      · rw [if_neg hbs] at hrun
        split at hrun
        · exact absurd hrun (by simp)
        · rename_i s1 eid heqins
          rw [Except.ok.injEq, Prod.mk.injEq] at hrun
          obtain ⟨hX, -⟩ := hrun
          subst hX
          refine PointerInv_finish_none s _ now s1 eid _ _ hinv heqins ?_ ?_
          · intro q hq
            have hq2 : (if bR = true then (none : Option Nat) else none) = some q := hq
            split at hq2 <;> exact absurd hq2 (by simp)
          · exact fsUpdate_sources s1.fileState (posixOf path) sA st.baselineHash eid iC now
    | some pid =>
      simp only [heqp] at hrun
      revert hrun
      generalize (if afterHash = "" then DELETED_FILE_HASH else afterHash) = sA
      generalize s.fileHashHistory.contains (posixOf path, sA) = bR
      generalize ((if sA = st.baselineHash then 1 else 0 : Nat)) = iC
      intro hrun
      by_cases hbs : st.currentHash = sA
      · rw [if_pos hbs, Except.ok.injEq, Prod.mk.injEq] at hrun
        exact hrun.1 ▸ hinv
      · rw [if_neg hbs] at hrun
        split at hrun
        · exact absurd hrun (by simp)
        · rename_i s1 eid heqins
          rw [Except.ok.injEq, Prod.mk.injEq] at hrun
          obtain ⟨hX, -⟩ := hrun
          subst hX
          refine PointerInv_finish_some s _ now s1 pid eid bR _ _ hinv heqins
            (hinv.2.2.1 st hstm pid heqp) ?_ ?_
          · intro q hq
            have hq2 : (if bR = true then some pid else (none : Option Nat)) = some q := hq
            split at hq2
            · exact (Option.some.inj hq2).symm
            · exact absurd hq2 (by simp)
          · exact fsUpdate_sources _ (posixOf path) sA st.baselineHash eid iC now

/-- Claim C1 (amended): the sound direction of the claimed equivalence is an
invariant of `record_file_transition`: if every event some
`reverted_event_id` points at has `is_effective = 0` (together with the id
bounds the autoincrement discipline gives), that remains true after any
successful `record_file_transition` call.  The converse direction of the
claim is false (see the counterexample): a plain `code_change` also clears
the previous event's flag without any pointer to it. -/
theorem C1_pointer_inv_preserved (s : ProjectStore) (sessionId : Nat)
    (source path afterHash : String) (now : Nat) (s' : ProjectStore) (r : Option Nat)
    (hinv : PointerInv s)
    (hrun : recordFileTransition s sessionId source path afterHash now = .ok (s', r)) :
    PointerInv s' := by
  cases hq : enforceQuota s now with
  | error e =>
    rw [recordFileTransition_quota_err s sessionId source path afterHash now e hq] at hrun
    exact absurd hrun (by simp)
  | ok s1 =>
    rw [recordFileTransition_quota s s1 sessionId source path afterHash now hq] at hrun
    exact PointerInv_tail s1 sessionId source path afterHash now s' r
      (PointerInv_enforceQuota s now s1 hq hinv) hrun

/-- Witness: the pointer invariant holds in the store a concrete
`record_file_transition` call produces from the tracked baseline store. -/
theorem C1_witness : PointerInv oneChangeStore :=
  C1_pointer_inv_preserved trackedStore 1 "filesystem" "a.txt" "h1" 10
    oneChangeStore (some 1)
    ⟨fun e he => absurd (show e ∈ ([] : List EventRow) from he) (List.not_mem_nil e),
     fun e he => absurd (show e ∈ ([] : List EventRow) from he) (List.not_mem_nil e),
     fun f hf lid hl => by
       have hf2 : f ∈ [({ path := "a.txt", currentHash := "b0", baselineHash := "b0",
                          lastEventId := none, isClean := 1, updatedAt := 0 } :
           FileStateRow)] := hf
       rw [List.mem_singleton] at hf2
       subst hf2
       exact absurd hl (by simp),
     fun t ht => absurd (show t ∈ ([] : List EventRow) from ht) (List.not_mem_nil t)⟩
    (by decide)
